import Mathlib

/-!
Verification of the widget-dashboard orchestration core of this repository.

The embedding translates the four services
(`dashboard-layout-manager.service.ts`, `widget-orchestrator.service.ts`,
`widget-communication.service.ts`, `widget-registry.service.ts`) into pure
Lean definitions.  JavaScript `number` values that the code uses as grid
coordinates or spans are modelled as `Int`; optional TS fields are `Option`
fields; JS `Map`s are association lists in insertion order; observables and
subjects are modelled by explicit state records and delivery traces.
TS fields `x?: number` / `y?: number` are normalised to `Int` (every read in
the service is `x || 0`, which identifies `undefined` with `0`).
-/

namespace Dash

/-- `WidgetLayout` of `widget.interface.ts` (`cols`, `rows`, `x`, `y`,
optional min/max spans). -/
structure WidgetLayout where
  cols : Int
  rows : Int
  x : Int
  y : Int
  minCols : Option Int := none
  maxCols : Option Int := none
  minRows : Option Int := none
  maxRows : Option Int := none
deriving DecidableEq, Repr

/-- `Partial<WidgetLayout>`: each field may be absent. -/
structure PartialWidgetLayout where
  cols : Option Int := none
  rows : Option Int := none
  x : Option Int := none
  y : Option Int := none
  minCols : Option Int := none
  maxCols : Option Int := none
  minRows : Option Int := none
  maxRows : Option Int := none
deriving DecidableEq, Repr

/-- One JS-object spread step `{...l, ...p}` for layouts: a field present in
the partial wins, otherwise the stored field is kept. -/
def mergeLayout (l : WidgetLayout) (p : PartialWidgetLayout) : WidgetLayout :=
  { cols := p.cols.getD l.cols
    rows := p.rows.getD l.rows
    x := p.x.getD l.x
    y := p.y.getD l.y
    minCols := match p.minCols with | some v => some v | none => l.minCols
    maxCols := match p.maxCols with | some v => some v | none => l.maxCols
    minRows := match p.minRows with | some v => some v | none => l.minRows
    maxRows := match p.maxRows with | some v => some v | none => l.maxRows }

/-- The `grid` record of `DashboardConfig`. -/
structure GridConfig where
  cols : Int
  rowHeight : Int
  margin : Int
  outerMargin : Int
  responsive : Bool
deriving DecidableEq, Repr

/-- A function-valued JS field (a class or closure reference):
`JSON.stringify` drops such properties. -/
inductive FnVal where
  | fn (tag : String)
deriving DecidableEq, Repr

/-- A stored timestamp: a JS `Date` object (epoch milliseconds), or the
plain string it has become after a JSON round trip (`JSON.stringify`
renders a `Date` via `toJSON` as its ISO string, which `JSON.parse` leaves
as a string). -/
inductive TimeVal where
  | date (ms : Int)
  | iso (s : String)
deriving DecidableEq, Repr

/-- The string rendering of a stringified `Date`.  The exact ISO-8601 format
is irrelevant to every claim; what matters is that the parsed value is a
string, not a `Date`. -/
def isoOf (ms : Int) : String := toString ms

/-- The `definition` sub-record of a stored `WidgetInstance`, reduced to the
fields the serialization claims observe: the class-valued `component`
reference and the `loadComponent` closure, both dropped by
`JSON.stringify`.  Its remaining fields (`type`, `name`, `category`,
`defaultConfig`, ...) are JSON-stable plain data. -/
structure SnapshotDefinition where
  component : Option FnVal := none
  loadComponent : Option FnVal := none
deriving DecidableEq, Repr

/-- A stored widget as the layout manager sees it: the service reads and
writes only `instance.id` and `instance.config.layout`; the remaining
`WidgetInstance` fields are carried through untouched and are modelled
insofar as the serialization claims observe them — the `Date` timestamps
`createdAt`/`updatedAt` and the function-valued definition references.  The
other passthrough fields (`config`, `state`, plain-data payloads) are
JSON-stable in this model. -/
structure DWidget where
  id : String
  layout : WidgetLayout
  createdAt : TimeVal := .date 0
  updatedAt : TimeVal := .date 0
  definition : SnapshotDefinition := {}
deriving DecidableEq, Repr

/-- `DashboardConfig` (the `BehaviorSubject` value of the layout manager).
`theme`/`autoSave`/`permissions` are optional passthrough data not read by
any modelled operation. -/
structure DashboardConfig where
  id : String
  title : String
  grid : GridConfig
  widgets : List DWidget
deriving DecidableEq, Repr

/-- The default dashboard of the service (12 columns). -/
def defaultDashboard : DashboardConfig :=
  { id := "default", title := "Dashboard"
    grid := { cols := 12, rowHeight := 100, margin := 10, outerMargin := 10
              responsive := true }
    widgets := [] }

/-- AABB collision test of `hasOverlap`:
`!(x2 <= wx1 || x1 >= wx2 || y2 <= wy1 || y1 >= wy2)`. -/
def collides (a b : WidgetLayout) : Bool :=
  !(decide (a.x + a.cols ≤ b.x) || decide (a.x ≥ b.x + b.cols) ||
    decide (a.y + a.rows ≤ b.y) || decide (a.y ≥ b.y + b.rows))

/-- `hasOverlap(excludeInstanceId, layout)`: does `layout` collide with any
widget other than the excluded id? -/
def hasOverlap (cfg : DashboardConfig) (excludeId : String) (l : WidgetLayout) : Bool :=
  (cfg.widgets.filter (fun w => !(w.id == excludeId))).any (fun w => collides l w.layout)

/-- The truthiness guard `o && bad o` of `validateLayout`: in JS a min/max
bound equal to `0` (or absent) disables the check. -/
def boundGate (o : Option Int) (bad : Int → Bool) : Bool :=
  match o with
  | none => false
  | some m => if m == 0 then false else bad m

/-- `validateLayout`: bounds and min/max constraints; any violation fails. -/
def validateLayout (gridCols : Int) (l : WidgetLayout) : Bool :=
  !(decide (l.x < 0) || decide (l.y < 0)) &&
  !(decide (l.x + l.cols > gridCols)) &&
  !(boundGate l.minCols (fun m => decide (l.cols < m))) &&
  !(boundGate l.maxCols (fun m => decide (l.cols > m))) &&
  !(boundGate l.minRows (fun m => decide (l.rows < m))) &&
  !(boundGate l.maxRows (fun m => decide (l.rows > m)))

/-- The x-range `0 .. gridCols - cols` of the placement loops (empty when the
widget is wider than the grid). -/
def xCandidates (gridCols cols : Int) : List Int :=
  (List.range (gridCols - cols + 1).toNat).map Int.ofNat

/-- The row-major double loop shared by `findOptimalPosition` and
`findCompactPosition`: scan rows `y, y+1, ...` (`fuel` rows in total), inside
each row scan `xs` left to right, and return the first candidate cell
satisfying `pred`. -/
def searchGrid (pred : Int × Int → Bool) (xs : List Int) : Nat → Nat → Option (Int × Int)
  | _, 0 => none
  | y, Nat.succ fuel =>
    match (xs.map (fun x => (x, (y : Int)))).find? pred with
    | some c => some c
    | none => searchGrid pred xs (y + 1) fuel

/-- `findOptimalPosition`: first non-colliding cell in row-major order
(y < 1000), else fall back to `(0, maxY)` below the tallest widget. -/
def findOptimalPosition (cfg : DashboardConfig) (l : WidgetLayout) : Int × Int :=
  match searchGrid (fun c => !hasOverlap cfg "" { l with x := c.1, y := c.2 })
      (xCandidates cfg.grid.cols l.cols) 0 1000 with
  | some c => c
  | none =>
    (0, cfg.widgets.foldr (fun w acc => max (w.layout.y + w.layout.rows) acc) 0)

/-- `addWidget(instance, position?)`: auto-place when no position is given,
overwrite the instance layout's `x`/`y`, append to the widget list.  (The
layout-change history entry is not part of the dashboard config.) -/
def addWidget (cfg : DashboardConfig) (w : DWidget) (pos : Option (Int × Int)) : DashboardConfig :=
  let p := match pos with
    | some p => p
    | none => findOptimalPosition cfg w.layout
  { cfg with widgets := cfg.widgets ++ [{ w with layout := { w.layout with x := p.1, y := p.2 } }] }

/-- `dx ∈ -r .. r` of the `resolveOverlaps` loops. -/
def intRange (r : Nat) : List Int :=
  (List.range (2 * r + 1)).map (fun i => (i : Int) - r)

/-- One radius of the `resolveOverlaps` search: `dx` outer, `dy` inner, only
perimeter cells (`|dx| = r` or `|dy| = r`), coordinates clamped to `≥ 0`. -/
def ringCandidates (l : WidgetLayout) (r : Nat) : List WidgetLayout :=
  (intRange r).flatMap (fun dx =>
    (intRange r).filterMap (fun dy =>
      if dx.natAbs == r || dy.natAbs == r then
        some { l with x := max 0 (l.x + dx), y := max 0 (l.y + dy) }
      else none))

/-- `resolveOverlaps`: expanding-ring search, radius 1..10, first candidate
that is valid and non-colliding. -/
def resolveOverlaps (cfg : DashboardConfig) (instanceId : String) (l : WidgetLayout) :
    Option WidgetLayout :=
  ((List.range 10).flatMap (fun i => ringCandidates l (i + 1))).find?
    (fun t => validateLayout cfg.grid.cols t && !hasOverlap cfg instanceId t)

/-- In-place mutation of the widget found by `config.widgets.find(...)`:
replace the layout of the first widget with the given id. -/
def setFirstLayout : List DWidget → String → WidgetLayout → List DWidget
  | [], _, _ => []
  | w :: ws, i, l =>
    if w.id == i then { w with layout := l } :: ws else w :: setFirstLayout ws i l

/-- `updateWidgetLayout(instanceId, layout)`: merge, validate (fail closed),
resolve collisions via the ring search or fail closed; returns the boolean
result together with the next dashboard config. -/
def updateWidgetLayout (cfg : DashboardConfig) (instanceId : String)
    (p : PartialWidgetLayout) : Bool × DashboardConfig :=
  match cfg.widgets.find? (fun w => w.id == instanceId) with
  | none => (false, cfg)
  | some w =>
    if !validateLayout cfg.grid.cols (mergeLayout w.layout p) then (false, cfg)
    else if hasOverlap cfg instanceId (mergeLayout w.layout p) then
      match resolveOverlaps cfg instanceId (mergeLayout w.layout p) with
      | some r => (true, { cfg with widgets := setFirstLayout cfg.widgets instanceId r })
      | none => (false, cfg)
    else (true, { cfg with widgets := setFirstLayout cfg.widgets instanceId (mergeLayout w.layout p) })

/-- The cells `(x..x+cols) × (y..y+rows)` a widget occupies (the
`occupiedPositions.add` double loop of `compactWidgets`). -/
def footprint (x y cols rows : Int) : List (Int × Int) :=
  (List.range cols.toNat).flatMap (fun (i : Nat) =>
    (List.range rows.toNat).map (fun (j : Nat) => (x + (i : Int), y + (j : Int))))

/-- All cells of a layout's footprint. -/
def cellsOf (l : WidgetLayout) : List (Int × Int) :=
  footprint l.x l.y l.cols l.rows

/-- The `canPlace` double check loop of `findCompactPosition`. -/
def cellsFree (occ : List (Int × Int)) (cells : List (Int × Int)) : Bool :=
  cells.all (fun c => decide (c ∉ occ))

/-- `findCompactPosition`: first row-major cell whose footprint is free
(y < 1000), with fallback `(0, 0)`. -/
def findCompactPosition (l : WidgetLayout) (gridCols : Int) (occ : List (Int × Int)) :
    Int × Int :=
  match searchGrid (fun c => cellsFree occ (footprint c.1 c.2 l.cols l.rows))
      (xCandidates gridCols l.cols) 0 1000 with
  | some c => c
  | none => (0, 0)

/-- The `widgets.map` body of `compactWidgets`, threading the occupied-cell
set through the list. -/
def compactGo (gridCols : Int) : List (Int × Int) → List DWidget → List DWidget
  | _, [] => []
  | occ, w :: ws =>
    { w with layout := { w.layout with
        x := (findCompactPosition w.layout gridCols occ).1
        y := (findCompactPosition w.layout gridCols occ).2 } } ::
      compactGo gridCols
        (occ ++ footprint (findCompactPosition w.layout gridCols occ).1
          (findCompactPosition w.layout gridCols occ).2 w.layout.cols w.layout.rows) ws

/-- `compactWidgets`: greedy packing starting from an empty occupied set. -/
def compactWidgets (cfg : DashboardConfig) (ws : List DWidget) : List DWidget :=
  compactGo cfg.grid.cols [] ws

/-- `a` strictly precedes `b` under the `compactLayout` sort comparator
(`y` first, then `x`). -/
def ltYX (a b : DWidget) : Bool :=
  decide (a.layout.y < b.layout.y) ||
    (a.layout.y == b.layout.y && decide (a.layout.x < b.layout.x))

/-- Stable insertion of a widget before the first strictly greater element
(JS `Array.prototype.sort` is stable). -/
def ordIns (w : DWidget) : List DWidget → List DWidget
  | [] => [w]
  | b :: l => if ltYX w b then w :: b :: l else b :: ordIns w l

/-- The stable `(y, x)` sort of `compactLayout`. -/
def sortYX : List DWidget → List DWidget
  | [] => []
  | w :: l => ordIns w (sortYX l)

/-- `compactLayout()`: sort by `(y, x)`, then greedily repack. -/
def compactLayout (cfg : DashboardConfig) : DashboardConfig :=
  { cfg with widgets := compactWidgets cfg (sortYX cfg.widgets) }

/-- JSON round trip of a stored timestamp: a `Date` becomes its ISO string;
a string stays itself. -/
def timeRoundTrip : TimeVal → TimeVal
  | .date ms => .iso (isoOf ms)
  | .iso s => .iso s

/-- JSON round trip of a stored widget: `JSON.stringify` renders the `Date`
timestamps as ISO strings (which `JSON.parse` leaves as strings) and drops
the function-valued `definition.component`/`definition.loadComponent`
properties; every other modelled field is JSON-stable. -/
def widgetRoundTrip (w : DWidget) : DWidget :=
  { w with createdAt := timeRoundTrip w.createdAt
           updatedAt := timeRoundTrip w.updatedAt
           definition := { component := none, loadComponent := none } }

/-- `JSON.parse(JSON.stringify(cfg))`: the identity on the
JSON-representable parts of the config (strings, numbers, booleans, the
grid object, the widget array structure), lossy inside each stored
widget. -/
def jsonRoundTrip (cfg : DashboardConfig) : DashboardConfig :=
  { cfg with widgets := cfg.widgets.map widgetRoundTrip }

/-- `exportDashboard()` returns `JSON.stringify(config, null, 2)`.  The
exported string is modelled by the config value it denotes — what
`JSON.parse` of it yields: the JSON image of the current config, with
`Date` timestamps turned into ISO strings and function-valued fields
gone. -/
def exportDashboard (cfg : DashboardConfig) : DashboardConfig :=
  jsonRoundTrip cfg

/-- `validateDashboardConfig`: `!config.id || !config.title || !config.grid
|| !Array.isArray(config.widgets)` throws.  In the typed model `grid` is
always present and `widgets` is always an array; among strings exactly `""`
is falsy. -/
def validateDashboardConfigOk (c : DashboardConfig) : Bool :=
  !(c.id == "") && !(c.title == "")

/-- `importDashboard(json)`: replace the config when validation passes,
otherwise fail closed. -/
def importDashboard (doc : DashboardConfig) (cfg : DashboardConfig) : Bool × DashboardConfig :=
  if validateDashboardConfigOk doc then (true, doc) else (false, cfg)

/-- The layout-manager calls quantified over by the collision-free claim,
plus `addWidget` with an explicit position. -/
inductive DashOp where
  | addAuto (w : DWidget)
  | addAt (w : DWidget) (pos : Int × Int)
  | update (instanceId : String) (p : PartialWidgetLayout)
  | compact
deriving DecidableEq, Repr

/-- One layout-manager call. -/
def applyOp (cfg : DashboardConfig) : DashOp → DashboardConfig
  | .addAuto w => addWidget cfg w none
  | .addAt w p => addWidget cfg w (some p)
  | .update i p => (updateWidgetLayout cfg i p).2
  | .compact => compactLayout cfg

/-- Boolean check over all ordered pairs of a list. -/
def pairwiseOk (p : α → α → Bool) : List α → Bool
  | [] => true
  | a :: l => l.all (p a) && pairwiseOk p l

/-- No two widgets of the list have colliding rectangles. -/
def collisionFree (ws : List DWidget) : Bool :=
  pairwiseOk (fun a b => !collides a.layout b.layout) ws

/-- Pairwise-distinct strings. -/
def distinctOk (l : List String) : Bool :=
  pairwiseOk (fun a b => !(a == b)) l

/-- Data-model id invariant: instance ids are unique and nonempty (the empty
string is the reserved exclude-nobody id of `findOptimalPosition`). -/
def idsOk (ws : List DWidget) : Bool :=
  distinctOk (ws.map (·.id)) && ws.all (fun w => !(w.id == ""))

/-- Data-model span invariant (§3 of the spec): positive spans that fit the
grid width. -/
def spanOk (gridCols : Int) (l : WidgetLayout) : Bool :=
  decide (1 ≤ l.cols) && decide (1 ≤ l.rows) && decide (l.cols ≤ gridCols)

/-- The inductive invariant of the dashboard state. -/
def stateOk (cfg : DashboardConfig) : Bool :=
  idsOk cfg.widgets &&
  cfg.widgets.all (fun w => spanOk cfg.grid.cols w.layout) &&
  collisionFree cfg.widgets

/-- Total rows of all widgets (the vertical extent a greedy packing can
need). -/
def sumRows (ws : List DWidget) : Int :=
  (ws.map (fun w => w.layout.rows)).sum

/-- Side conditions under which a call preserves the invariant: auto-adds
respect the data model and use a fresh id, partial updates keep spans
positive, and compaction has room inside the 1000-row search bound. -/
def opOk (cfg : DashboardConfig) : DashOp → Bool
  | .addAuto w =>
    spanOk cfg.grid.cols w.layout && !(w.id == "") &&
      cfg.widgets.all (fun v => !(v.id == w.id))
  | .addAt _ _ => false
  | .update _ p =>
    (match p.cols with | some c => decide (1 ≤ c) | none => true) &&
      (match p.rows with | some r => decide (1 ≤ r) | none => true)
  | .compact => decide (sumRows cfg.widgets ≤ 1000)

end Dash

namespace Dash

theorem pairwiseOk_iff {α : Type} {p : α → α → Bool} {l : List α} :
    pairwiseOk p l = true ↔ List.Pairwise (fun a b => p a b = true) l := by
  induction l with
  | nil => simp [pairwiseOk]
  | cons a l ih =>
    simp [pairwiseOk, List.all_eq_true, ih, List.pairwise_cons]

theorem mem_footprint {x y cols rows : Int} {c : Int × Int} :
    c ∈ footprint x y cols rows ↔
      x ≤ c.1 ∧ c.1 < x + cols ∧ y ≤ c.2 ∧ c.2 < y + rows := by
  simp only [footprint, List.mem_flatMap, List.mem_map, List.mem_range]
  constructor
  · rintro ⟨i, hi, j, hj, rfl⟩
    simp
    omega
  · rintro ⟨h1, h2, h3, h4⟩
    refine ⟨(c.1 - x).toNat, by omega, (c.2 - y).toNat, by omega, ?_⟩
    obtain ⟨c1, c2⟩ := c
    simp at h1 h2 h3 h4 ⊢
    omega

theorem collides_iff {a b : WidgetLayout} :
    collides a b = true ↔
      b.x < a.x + a.cols ∧ a.x < b.x + b.cols ∧
        b.y < a.y + a.rows ∧ a.y < b.y + b.rows := by
  simp [collides]
  omega

theorem collides_comm (a b : WidgetLayout) : collides a b = collides b a := by
  have h : collides a b = true ↔ collides b a = true := by
    rw [collides_iff, collides_iff]
    omega
  cases hab : collides a b <;> cases hba : collides b a <;> simp_all

theorem collides_eq_false_of_disjoint {a b : WidgetLayout}
    (ha1 : 1 ≤ a.cols) (ha2 : 1 ≤ a.rows) (hb1 : 1 ≤ b.cols) (hb2 : 1 ≤ b.rows)
    (h : ∀ c ∈ cellsOf a, c ∉ cellsOf b) : collides a b = false := by
  cases hc : collides a b with
  | false => rfl
  | true =>
    exfalso
    rw [collides_iff] at hc
    refine h (max a.x b.x, max a.y b.y) ?_ ?_
    · rw [cellsOf, mem_footprint]
      simp
      omega
    · rw [cellsOf, mem_footprint]
      simp
      omega

theorem mem_xCandidates {gridCols cols x : Int} :
    x ∈ xCandidates gridCols cols ↔ 0 ≤ x ∧ x ≤ gridCols - cols := by
  simp only [xCandidates, List.mem_map, List.mem_range]
  constructor
  · rintro ⟨i, hi, rfl⟩
    simp [Int.ofNat_eq_natCast]
    omega
  · rintro ⟨h1, h2⟩
    exact ⟨x.toNat, by omega, by simp [Int.ofNat_eq_natCast]; omega⟩

theorem cellsFree_iff {occ cells : List (Int × Int)} :
    cellsFree occ cells = true ↔ ∀ c ∈ cells, c ∉ occ := by
  simp [cellsFree, List.all_eq_true]

theorem hasOverlap_eq_false_iff {cfg : DashboardConfig} {excludeId : String}
    {l : WidgetLayout} :
    hasOverlap cfg excludeId l = false ↔
      ∀ w ∈ cfg.widgets, w.id ≠ excludeId → collides l w.layout = false := by
  rw [hasOverlap]
  rw [← Bool.not_eq_true, List.any_eq_true]
  constructor
  · intro h w hw hne
    cases hc : collides l w.layout with
    | false => rfl
    | true =>
      exact absurd ⟨w, List.mem_filter.mpr ⟨hw, by simp [hne]⟩, hc⟩ h
  · rintro h ⟨w, hw, hc⟩
    rw [List.mem_filter] at hw
    have hne : w.id ≠ excludeId := by
      have := hw.2
      simp at this
      exact this
    rw [h w hw.1 hne] at hc
    exact Bool.false_ne_true hc

theorem validateLayout_bounds {gc : Int} {l : WidgetLayout}
    (h : validateLayout gc l = true) : 0 ≤ l.x ∧ 0 ≤ l.y ∧ l.x + l.cols ≤ gc := by
  rw [validateLayout] at h
  simp only [Bool.and_eq_true, Bool.not_eq_true', Bool.or_eq_false_iff,
    decide_eq_false_iff_not] at h
  omega

theorem searchGrid_some {pred : Int × Int → Bool} {xs : List Int} :
    ∀ {y fuel : Nat} {c : Int × Int}, searchGrid pred xs y fuel = some c →
      pred c = true ∧ c.1 ∈ xs ∧ (y : Int) ≤ c.2 ∧ c.2 < ((y + fuel : Nat) : Int) := by
  intro y fuel
  induction fuel generalizing y with
  | zero => intro c h; simp [searchGrid] at h
  | succ n ih =>
    intro c h
    rw [searchGrid] at h
    cases hf : (xs.map (fun x => (x, (y : Int)))).find? pred with
    | some c' =>
      rw [hf] at h
      cases h
      have hp := List.find?_some hf
      have hm := List.mem_of_find?_eq_some hf
      rw [List.mem_map] at hm
      obtain ⟨x, hx, hxc⟩ := hm
      refine ⟨hp, ?_, ?_, ?_⟩
      · rw [← hxc]; exact hx
      · rw [← hxc]
      · rw [← hxc]
        push_cast
        omega
    | none =>
      rw [hf] at h
      obtain ⟨h1, h2, h3, h4⟩ := ih h
      refine ⟨h1, h2, by push_cast at h3 ⊢; omega, by push_cast at h4 ⊢; omega⟩

theorem searchGrid_finds (pred : Int × Int → Bool) (xs : List Int) (B : Nat) :
    ∀ (y fuel : Nat), y ≤ B → B < y + fuel →
      (∃ x ∈ xs, pred (x, (B : Int)) = true) →
      ∃ c, searchGrid pred xs y fuel = some c ∧ pred c = true ∧ c.1 ∈ xs ∧
        0 ≤ c.2 ∧ c.2 ≤ (B : Int) := by
  intro y fuel
  induction fuel generalizing y with
  | zero => intro h1 h2 _; omega
  | succ n ih =>
    intro h1 h2 hex
    rw [searchGrid]
    cases hf : (xs.map (fun x => (x, (y : Int)))).find? pred with
    | some c' =>
      have hp := List.find?_some hf
      have hm := List.mem_of_find?_eq_some hf
      rw [List.mem_map] at hm
      obtain ⟨x, hx, hxc⟩ := hm
      refine ⟨c', rfl, hp, ?_, ?_, ?_⟩
      · rw [← hxc]; exact hx
      · rw [← hxc]; positivity
      · rw [← hxc]
        simp
        omega
    | none =>
      rcases Nat.eq_or_lt_of_le h1 with heq | hlt
      · exfalso
        obtain ⟨x, hx, hpx⟩ := hex
        have : (x, (B : Int)) ∈ xs.map (fun x => (x, (y : Int))) := by
          rw [List.mem_map]
          exact ⟨x, hx, by rw [heq]⟩
        have := List.find?_eq_none.mp hf _ this
        exact this hpx
      · exact ih (y + 1) hlt (by omega) hex

end Dash

namespace Dash

theorem spanOk_iff {gc : Int} {l : WidgetLayout} :
    spanOk gc l = true ↔ 1 ≤ l.cols ∧ 1 ≤ l.rows ∧ l.cols ≤ gc := by
  simp [spanOk]
  tauto

theorem stateOk_iff {cfg : DashboardConfig} :
    stateOk cfg = true ↔
      List.Pairwise (fun a b : DWidget => a.id ≠ b.id) cfg.widgets ∧
      (∀ w ∈ cfg.widgets, w.id ≠ "") ∧
      (∀ w ∈ cfg.widgets, spanOk cfg.grid.cols w.layout = true) ∧
      List.Pairwise (fun a b : DWidget => collides a.layout b.layout = false) cfg.widgets := by
  rw [stateOk, idsOk, collisionFree, distinctOk]
  simp only [Bool.and_eq_true, pairwiseOk_iff, List.pairwise_map, List.all_eq_true,
    Bool.not_eq_true', beq_eq_false_iff_ne]
  tauto

theorem resolveOverlaps_some {cfg : DashboardConfig} {i : String}
    {l r : WidgetLayout} (h : resolveOverlaps cfg i l = some r) :
    validateLayout cfg.grid.cols r = true ∧ hasOverlap cfg i r = false ∧
      r.cols = l.cols ∧ r.rows = l.rows ∧ 0 ≤ r.x ∧ 0 ≤ r.y := by
  have hp := List.find?_some h
  have hm := List.mem_of_find?_eq_some h
  simp only [Bool.and_eq_true, Bool.not_eq_true'] at hp
  refine ⟨hp.1, hp.2, ?_⟩
  simp only [List.mem_flatMap, ringCandidates, List.mem_filterMap, List.mem_range,
    List.mem_map, intRange] at hm
  obtain ⟨rad, ⟨hrad, dx, ⟨idx, hidx, rfl⟩, dy, ⟨⟨jdy, hjdy, rfl⟩, hcond⟩⟩⟩ := hm
  split at hcond
  · cases hcond
    refine ⟨rfl, rfl, le_max_left _ _, le_max_left _ _⟩
  · cases hcond

theorem maxY_le {ws : List DWidget} {w : DWidget} (h : w ∈ ws) :
    w.layout.y + w.layout.rows ≤
      ws.foldr (fun v acc => max (v.layout.y + v.layout.rows) acc) 0 := by
  induction ws with
  | nil => cases h
  | cons a l ih =>
    rcases List.mem_cons.mp h with rfl | hmem
    · exact le_max_left _ _
    · exact le_trans (ih hmem) (le_max_right _ _)

theorem setFirstLayout_map_id (ws : List DWidget) (i : String) (l : WidgetLayout) :
    (setFirstLayout ws i l).map (·.id) = ws.map (·.id) := by
  induction ws with
  | nil => rfl
  | cons w rest ih =>
    rw [setFirstLayout]
    by_cases hc : w.id == i <;> simp [hc, ih]

theorem mem_setFirstLayout {ws : List DWidget} {i : String} {l : WidgetLayout}
    {b : DWidget} (h : b ∈ setFirstLayout ws i l) :
    b ∈ ws ∨ ∃ v ∈ ws, v.id = i ∧ b = { v with layout := l } := by
  induction ws with
  | nil => cases h
  | cons w rest ih =>
    rw [setFirstLayout] at h
    by_cases hc : w.id == i
    · rw [if_pos hc] at h
      rcases List.mem_cons.mp h with rfl | hmem
      · exact Or.inr ⟨w, List.mem_cons_self _ _, beq_iff_eq.mp hc, rfl⟩
      · exact Or.inl (List.mem_cons_of_mem _ hmem)
    · rw [if_neg hc] at h
      rcases List.mem_cons.mp h with rfl | hmem
      · exact Or.inl (List.mem_cons_self _ _)
      · rcases ih hmem with h1 | ⟨v, hv, hvi, hb⟩
        · exact Or.inl (List.mem_cons_of_mem _ h1)
        · exact Or.inr ⟨v, List.mem_cons_of_mem _ hv, hvi, hb⟩

theorem setFirst_noCollide {ws : List DWidget} {i : String} {L : WidgetLayout}
    (hpw : List.Pairwise (fun a b => collides a.layout b.layout = false) ws)
    (hids : List.Pairwise (fun a b : DWidget => a.id ≠ b.id) ws)
    (hL : ∀ v ∈ ws, v.id ≠ i → collides L v.layout = false) :
    List.Pairwise (fun a b => collides a.layout b.layout = false) (setFirstLayout ws i L) := by
  induction ws with
  | nil => exact List.Pairwise.nil
  | cons w rest ih =>
    rw [setFirstLayout]
    rcases List.pairwise_cons.mp hpw with ⟨hw, hrest⟩
    rcases List.pairwise_cons.mp hids with ⟨hwid, hrestid⟩
    by_cases hc : w.id == i
    · rw [if_pos hc, List.pairwise_cons]
      refine ⟨fun b hb => ?_, hrest⟩
      have hbid : b.id ≠ i := by
        intro he
        exact hwid b hb (by rw [beq_iff_eq.mp hc, he])
      exact hL b (List.mem_cons_of_mem _ hb) hbid
    · rw [if_neg hc, List.pairwise_cons]
      refine ⟨fun b hb => ?_, ih hrest hrestid
        (fun v hv hvi => hL v (List.mem_cons_of_mem _ hv) hvi)⟩
      rcases mem_setFirstLayout hb with hbm | ⟨v, hv, hvi, rfl⟩
      · exact hw b hbm
      · have hwi : w.id ≠ i := by
          intro he
          exact hc (beq_iff_eq.mpr he)
        have := hL w (List.mem_cons_self _ _) hwi
        rw [collides_comm] at this
        exact this

end Dash

namespace Dash

theorem stateOk_setFirst {cfg : DashboardConfig} {i : String} {L : WidgetLayout}
    (h : stateOk cfg = true)
    (hsp : spanOk cfg.grid.cols L = true)
    (hov : hasOverlap cfg i L = false) :
    stateOk { cfg with widgets := setFirstLayout cfg.widgets i L } = true := by
  rcases stateOk_iff.mp h with ⟨hids, hne, hspan, hpw⟩
  rw [stateOk_iff]
  refine ⟨?_, ?_, ?_, ?_⟩
  · have h1 : List.Pairwise (fun a b : String => a ≠ b) (cfg.widgets.map (·.id)) :=
      List.pairwise_map.mpr hids
    have h2 : List.Pairwise (fun a b : String => a ≠ b)
        ((setFirstLayout cfg.widgets i L).map (·.id)) := by
      rw [setFirstLayout_map_id]
      exact h1
    exact List.pairwise_map.mp h2
  · intro v hv
    rcases mem_setFirstLayout hv with hm | ⟨u, hu, _, rfl⟩
    · exact hne v hm
    · exact hne u hu
  · intro v hv
    rcases mem_setFirstLayout hv with hm | ⟨u, hu, _, rfl⟩
    · exact hspan v hm
    · exact hsp
  · exact setFirst_noCollide hpw hids (hasOverlap_eq_false_iff.mp hov)

theorem update_stateOk {cfg : DashboardConfig} {i : String} {p : PartialWidgetLayout}
    (h : stateOk cfg = true)
    (hc : ∀ c, p.cols = some c → 1 ≤ c)
    (hr : ∀ r, p.rows = some r → 1 ≤ r) :
    stateOk (updateWidgetLayout cfg i p).2 = true := by
  rw [updateWidgetLayout]
  cases hf : cfg.widgets.find? (fun w => w.id == i) with
  | none => exact h
  | some w =>
    have hwmem := List.mem_of_find?_eq_some hf
    rcases stateOk_iff.mp h with ⟨_, _, hspan, _⟩
    have hwsp := spanOk_iff.mp (hspan w hwmem)
    cases hv : validateLayout cfg.grid.cols (mergeLayout w.layout p) with
    | false => simp only [hv, Bool.not_false, if_true]; exact h
    | true =>
      have hb := validateLayout_bounds hv
      have hco : 1 ≤ (mergeLayout w.layout p).cols := by
        rw [mergeLayout]
        cases hpc : p.cols with
        | none => simpa using hwsp.1
        | some c => simpa using hc c hpc
      have hro : 1 ≤ (mergeLayout w.layout p).rows := by
        rw [mergeLayout]
        cases hpr : p.rows with
        | none => simpa using hwsp.2.1
        | some r => simpa using hr r hpr
      have hspL : spanOk cfg.grid.cols (mergeLayout w.layout p) = true :=
        spanOk_iff.mpr ⟨hco, hro, by omega⟩
      simp only [hv, Bool.not_true, if_false]
      cases hov : hasOverlap cfg i (mergeLayout w.layout p) with
      | false =>
        exact stateOk_setFirst h hspL hov
      | true =>
        cases hres : resolveOverlaps cfg i (mergeLayout w.layout p) with
        | none => exact h
        | some r =>
          obtain ⟨hrv, hrov, hrc, hrr, _, _⟩ := resolveOverlaps_some hres
          have hrb := validateLayout_bounds hrv
          have hspr : spanOk cfg.grid.cols r = true :=
            spanOk_iff.mpr ⟨by omega, by omega, by omega⟩
          exact stateOk_setFirst h hspr hrov

end Dash

namespace Dash

theorem append_stateOk {cfg : DashboardConfig} {v : DWidget}
    (h : stateOk cfg = true)
    (hsp : spanOk cfg.grid.cols v.layout = true)
    (hid : v.id ≠ "")
    (hfresh : ∀ u ∈ cfg.widgets, u.id ≠ v.id)
    (hnc : ∀ u ∈ cfg.widgets, collides v.layout u.layout = false) :
    stateOk { cfg with widgets := cfg.widgets ++ [v] } = true := by
  rcases stateOk_iff.mp h with ⟨hids, hne, hspan, hpw⟩
  rw [stateOk_iff]
  refine ⟨?_, ?_, ?_, ?_⟩
  · rw [List.pairwise_append]
    refine ⟨hids, List.pairwise_singleton _ _, ?_⟩
    intro a ha b hb
    rw [List.mem_singleton] at hb
    subst hb
    exact hfresh a ha
  · intro u hu
    rcases List.mem_append.mp hu with hm | hm
    · exact hne u hm
    · rw [List.mem_singleton] at hm
      subst hm
      exact hid
  · intro u hu
    rcases List.mem_append.mp hu with hm | hm
    · exact hspan u hm
    · rw [List.mem_singleton] at hm
      subst hm
      exact hsp
  · rw [List.pairwise_append]
    refine ⟨hpw, List.pairwise_singleton _ _, ?_⟩
    intro a ha b hb
    rw [List.mem_singleton] at hb
    subst hb
    rw [collides_comm]
    exact hnc a ha

theorem findOptimalPosition_noCollide {cfg : DashboardConfig} {l : WidgetLayout}
    (hids : ∀ u ∈ cfg.widgets, u.id ≠ "") :
    ∀ u ∈ cfg.widgets,
      collides { l with x := (findOptimalPosition cfg l).1
                        y := (findOptimalPosition cfg l).2 } u.layout = false := by
  intro u hu
  rw [findOptimalPosition]
  cases hs : searchGrid (fun c => !hasOverlap cfg "" { l with x := c.1, y := c.2 })
      (xCandidates cfg.grid.cols l.cols) 0 1000 with
  | some c =>
    have hps := (searchGrid_some hs).1
    rw [Bool.not_eq_eq_eq_not, Bool.not_true] at hps
    exact hasOverlap_eq_false_iff.mp hps u hu (hids u hu)
  | none =>
    have hm := maxY_le hu
    cases hcol : collides { l with
        x := ((0 : Int), cfg.widgets.foldr (fun v acc => max (v.layout.y + v.layout.rows) acc) 0).1
        y := ((0 : Int), cfg.widgets.foldr (fun v acc => max (v.layout.y + v.layout.rows) acc) 0).2 }
        u.layout with
    | false => rfl
    | true =>
      exfalso
      rw [collides_iff] at hcol
      obtain ⟨_, _, _, h4⟩ := hcol
      simp only at h4 hm
      omega

theorem addAuto_stateOk {cfg : DashboardConfig} {w : DWidget}
    (h : stateOk cfg = true)
    (hsp : spanOk cfg.grid.cols w.layout = true)
    (hid : w.id ≠ "")
    (hfresh : ∀ u ∈ cfg.widgets, u.id ≠ w.id) :
    stateOk (addWidget cfg w none) = true := by
  have hnc := @findOptimalPosition_noCollide cfg w.layout
    (fun u hu => (stateOk_iff.mp h).2.1 u hu)
  refine append_stateOk h ?_ hid hfresh ?_
  · rw [spanOk_iff] at hsp ⊢
    exact hsp
  · intro u hu
    exact hnc u hu

end Dash

namespace Dash

theorem sumRows_cons {w : DWidget} {ws : List DWidget} :
    sumRows (w :: ws) = w.layout.rows + sumRows ws := by
  simp [sumRows]

theorem sumRows_nonneg {ws : List DWidget}
    (h : ∀ w ∈ ws, 1 ≤ w.layout.rows) : 0 ≤ sumRows ws := by
  induction ws with
  | nil => simp [sumRows]
  | cons w rest ih =>
    rw [sumRows_cons]
    have h1 := h w (List.mem_cons_self _ _)
    have h2 := ih (fun v hv => h v (List.mem_cons_of_mem _ hv))
    omega

theorem ordIns_perm (w : DWidget) (l : List DWidget) : (ordIns w l).Perm (w :: l) := by
  induction l with
  | nil => exact List.Perm.refl _
  | cons b l ih =>
    rw [ordIns]
    by_cases hlt : ltYX w b
    · rw [if_pos hlt]
    · rw [if_neg hlt]
      exact (ih.cons b).trans (List.Perm.swap _ _ _)

theorem sortYX_perm (l : List DWidget) : (sortYX l).Perm l := by
  induction l with
  | nil => exact List.Perm.refl _
  | cons w l ih =>
    exact (ordIns_perm w (sortYX l)).trans (ih.cons w)

theorem compactGo_spec (gc : Int) :
    ∀ (ws : List DWidget) (occ : List (Int × Int)) (B : Int),
      0 ≤ B →
      B + sumRows ws ≤ 1000 →
      (∀ c ∈ occ, c.2 < B) →
      (∀ w ∈ ws, 1 ≤ w.layout.cols ∧ w.layout.cols ≤ gc ∧ 1 ≤ w.layout.rows) →
      List.Pairwise (fun a b => collides a.layout b.layout = false) (compactGo gc occ ws) ∧
      (∀ w' ∈ compactGo gc occ ws, ∀ c ∈ cellsOf w'.layout,
        c ∉ occ ∧ c.2 < B + sumRows ws) ∧
      (compactGo gc occ ws).map (fun w => (w.id, w.layout.cols, w.layout.rows)) =
        ws.map (fun w => (w.id, w.layout.cols, w.layout.rows)) := by
  intro ws
  induction ws with
  | nil =>
    intro occ B _ _ _ _
    exact ⟨List.Pairwise.nil, by simp [compactGo], by simp [compactGo]⟩
  | cons w rest ih =>
    intro occ B hB0 hBsum hocc hspans
    obtain ⟨hc1, hc2, hr1⟩ := hspans w (List.mem_cons_self _ _)
    have hrestspans : ∀ v ∈ rest, 1 ≤ v.layout.cols ∧ v.layout.cols ≤ gc ∧ 1 ≤ v.layout.rows :=
      fun v hv => hspans v (List.mem_cons_of_mem _ hv)
    have hrest_nonneg : 0 ≤ sumRows rest :=
      sumRows_nonneg (fun v hv => (hrestspans v hv).2.2)
    rw [sumRows_cons] at hBsum
    have hB999 : B ≤ 999 := by omega
    -- the greedy search succeeds: the whole row `B` is free
    have hex : ∃ x ∈ xCandidates gc w.layout.cols,
        (fun c => cellsFree occ (footprint c.1 c.2 w.layout.cols w.layout.rows))
          (x, ((B.toNat : Nat) : Int)) = true := by
      refine ⟨0, mem_xCandidates.mpr ⟨le_refl 0, by omega⟩, ?_⟩
      rw [cellsFree_iff]
      intro c hc hmem
      rw [mem_footprint] at hc
      have := hocc c hmem
      simp only at hc
      omega
    obtain ⟨c, hsc, hpredc, hcx, hc20, hc2B⟩ :=
      searchGrid_finds (fun c => cellsFree occ (footprint c.1 c.2 w.layout.cols w.layout.rows))
        (xCandidates gc w.layout.cols) B.toNat 0 1000 (Nat.zero_le _) (by omega) hex
    rw [Int.toNat_of_nonneg hB0] at hc2B
    have hfcp : findCompactPosition w.layout gc occ = c := by
      rw [findCompactPosition, hsc]
    have hfree : ∀ cell ∈ footprint c.1 c.2 w.layout.cols w.layout.rows, cell ∉ occ :=
      cellsFree_iff.mp hpredc
    -- next state of the induction
    have hocc2 : ∀ cell ∈ occ ++ footprint c.1 c.2 w.layout.cols w.layout.rows,
        cell.2 < B + w.layout.rows := by
      intro cell hcell
      rcases List.mem_append.mp hcell with hm | hm
      · have := hocc cell hm
        omega
      · rw [mem_footprint] at hm
        omega
    obtain ⟨ihpw, ihcells, ihmap⟩ :=
      ih (occ ++ footprint c.1 c.2 w.layout.cols w.layout.rows) (B + w.layout.rows)
        (by omega) (by omega) hocc2 hrestspans
    rw [compactGo, hfcp]
    refine ⟨?_, ?_, ?_⟩
    · rw [List.pairwise_cons]
      refine ⟨?_, ihpw⟩
      intro b hb
      have hbsp : 1 ≤ b.layout.cols ∧ 1 ≤ b.layout.rows := by
        have hmm : (b.id, b.layout.cols, b.layout.rows) ∈
            (compactGo gc (occ ++ footprint c.1 c.2 w.layout.cols w.layout.rows) rest).map
              (fun w => (w.id, w.layout.cols, w.layout.rows)) :=
          List.mem_map.mpr ⟨b, hb, rfl⟩
        rw [ihmap, List.mem_map] at hmm
        obtain ⟨v, hv, hveq⟩ := hmm
        obtain ⟨hv1, _, hv3⟩ := hrestspans v hv
        rw [Prod.mk.injEq, Prod.mk.injEq] at hveq
        omega
      have hdisj : ∀ cell ∈ cellsOf b.layout,
          cell ∉ cellsOf { w.layout with x := c.1, y := c.2 } := by
        intro cell hcell
        have := (ihcells b hb cell hcell).1
        intro hmem
        exact this (List.mem_append.mpr (Or.inr hmem))
      have hcb : collides b.layout { w.layout with x := c.1, y := c.2 } = false :=
        collides_eq_false_of_disjoint hbsp.1 hbsp.2 hc1 hr1 hdisj
      rw [collides_comm] at hcb
      exact hcb
    · intro b hb cell hcell
      rcases List.mem_cons.mp hb with rfl | hbm
      · have hc' : cell ∈ footprint c.1 c.2 w.layout.cols w.layout.rows := hcell
        refine ⟨hfree cell hc', ?_⟩
        rw [mem_footprint] at hc'
        rw [sumRows_cons]
        omega
      · obtain ⟨hnm, hlt⟩ := ihcells b hbm cell hcell
        refine ⟨fun hmem => hnm (List.mem_append.mpr (Or.inl hmem)), ?_⟩
        rw [sumRows_cons]
        omega
    · rw [List.map_cons, ihmap, List.map_cons]

end Dash

namespace Dash

theorem compact_stateOk {cfg : DashboardConfig} (h : stateOk cfg = true)
    (hsum : sumRows cfg.widgets ≤ 1000) :
    stateOk (compactLayout cfg) = true := by
  rcases stateOk_iff.mp h with ⟨hids, hne, hspan, _⟩
  have hperm := sortYX_perm cfg.widgets
  have hsum2 : sumRows (sortYX cfg.widgets) = sumRows cfg.widgets := by
    rw [sumRows, sumRows]
    exact (hperm.map _).sum_eq
  have hspans : ∀ w ∈ sortYX cfg.widgets,
      1 ≤ w.layout.cols ∧ w.layout.cols ≤ cfg.grid.cols ∧ 1 ≤ w.layout.rows := by
    intro w hw
    have := spanOk_iff.mp (hspan w (hperm.mem_iff.mp hw))
    exact ⟨this.1, this.2.2, this.2.1⟩
  obtain ⟨gpw, _, gmap⟩ := compactGo_spec cfg.grid.cols (sortYX cfg.widgets) [] 0
    le_rfl (by omega) (by intro c hc; cases hc) hspans
  have hidmap : (compactGo cfg.grid.cols [] (sortYX cfg.widgets)).map (·.id) =
      (sortYX cfg.widgets).map (·.id) := by
    have h2 := congrArg (List.map (fun t : String × Int × Int => t.1)) gmap
    simpa [List.map_map, Function.comp] using h2
  rw [stateOk_iff]
  refine ⟨?_, ?_, ?_, gpw⟩
  · have h1 : List.Pairwise (fun a b : String => a ≠ b) (cfg.widgets.map (·.id)) :=
      List.pairwise_map.mpr hids
    have h2 : List.Pairwise (fun a b : String => a ≠ b) ((sortYX cfg.widgets).map (·.id)) :=
      (List.Perm.pairwise_iff (fun hab => Ne.symm hab) (hperm.map (·.id))).mpr h1
    have h3 : List.Pairwise (fun a b : String => a ≠ b)
        ((compactGo cfg.grid.cols [] (sortYX cfg.widgets)).map (·.id)) := by
      rw [hidmap]
      exact h2
    exact List.pairwise_map.mp h3
  · intro u hu
    have hm : u.id ∈ (sortYX cfg.widgets).map (·.id) := by
      rw [← hidmap]
      exact List.mem_map_of_mem _ hu
    rw [List.mem_map] at hm
    obtain ⟨v, hv, hveq⟩ := hm
    rw [← hveq]
    exact hne v (hperm.mem_iff.mp hv)
  · intro u hu
    have hm : (u.id, u.layout.cols, u.layout.rows) ∈
        (sortYX cfg.widgets).map (fun w => (w.id, w.layout.cols, w.layout.rows)) := by
      rw [← gmap]
      exact List.mem_map.mpr ⟨u, hu, rfl⟩
    rw [List.mem_map] at hm
    obtain ⟨v, hv, hveq⟩ := hm
    have hvs := spanOk_iff.mp (hspan v (hperm.mem_iff.mp hv))
    rw [Prod.mk.injEq, Prod.mk.injEq] at hveq
    show spanOk cfg.grid.cols u.layout = true
    rw [spanOk_iff]
    obtain ⟨_, hv2, hv3⟩ := hveq
    exact ⟨by omega, by omega, by omega⟩

theorem stateOk_applyOp {cfg : DashboardConfig} {op : DashOp}
    (h : stateOk cfg = true) (hop : opOk cfg op = true) :
    stateOk (applyOp cfg op) = true := by
  cases op with
  | addAuto w =>
    simp only [opOk, Bool.and_eq_true, List.all_eq_true, Bool.not_eq_true',
      beq_eq_false_iff_ne] at hop
    obtain ⟨⟨hsp, hid⟩, hfresh⟩ := hop
    exact addAuto_stateOk h hsp hid (fun u hu => hfresh u hu)
  | addAt w p => simp [opOk] at hop
  | update i p =>
    simp only [opOk, Bool.and_eq_true] at hop
    refine update_stateOk h ?_ ?_
    · intro c hcEq
      have h1 := hop.1
      rw [hcEq] at h1
      simpa using h1
    · intro r hrEq
      have h2 := hop.2
      rw [hrEq] at h2
      simpa using h2
  | compact =>
    simp only [opOk, decide_eq_true_eq] at hop
    exact compact_stateOk h hop

end Dash

namespace Dash

theorem update_false_no_mutation {cfg : DashboardConfig} {i : String}
    {p : PartialWidgetLayout} {ok : Bool} {cfg2 : DashboardConfig}
    (hrun : updateWidgetLayout cfg i p = (ok, cfg2)) (h : ok = false) :
    cfg2 = cfg := by
  subst h
  rw [updateWidgetLayout] at hrun
  split at hrun
  · injection hrun with h1 h2
    exact h2.symm
  · split at hrun
    · injection hrun with h1 h2
      exact h2.symm
    · split at hrun
      · split at hrun
        · injection hrun with h1 h2
          cases h1
        · injection hrun with h1 h2
          exact h2.symm
      · injection hrun with h1 h2
        cases h1

theorem update_true_spec {cfg : DashboardConfig} {i : String}
    {p : PartialWidgetLayout} {ok : Bool} {cfg2 : DashboardConfig}
    (hrun : updateWidgetLayout cfg i p = (ok, cfg2)) (h : ok = true) :
    ∃ w, cfg.widgets.find? (fun v => v.id == i) = some w ∧
      validateLayout cfg.grid.cols (mergeLayout w.layout p) = true ∧
      ((hasOverlap cfg i (mergeLayout w.layout p) = false ∧
         cfg2 = { cfg with widgets := setFirstLayout cfg.widgets i (mergeLayout w.layout p) }) ∨
       (hasOverlap cfg i (mergeLayout w.layout p) = true ∧
         ∃ L, resolveOverlaps cfg i (mergeLayout w.layout p) = some L ∧
           validateLayout cfg.grid.cols L = true ∧ hasOverlap cfg i L = false ∧
           L.cols = (mergeLayout w.layout p).cols ∧
           L.rows = (mergeLayout w.layout p).rows ∧ 0 ≤ L.x ∧ 0 ≤ L.y ∧
           cfg2 = { cfg with widgets := setFirstLayout cfg.widgets i L })) := by
  subst h
  rw [updateWidgetLayout] at hrun
  split at hrun
  · injection hrun with h1 h2
    cases h1
  · next w hf =>
    refine ⟨w, hf, ?_⟩
    split at hrun
    · injection hrun with h1 h2
      cases h1
    · next hval =>
      rw [Bool.not_eq_true', Bool.not_eq_false] at hval
      refine ⟨hval, ?_⟩
      split at hrun
      · next hov =>
        split at hrun
        · next L hres =>
          injection hrun with h1 h2
          obtain ⟨hrv, hrov, hrc, hrr, hrx, hry⟩ := resolveOverlaps_some hres
          exact Or.inr ⟨hov, L, hres, hrv, hrov, hrc, hrr, hrx, hry, h2.symm⟩
        · injection hrun with h1 h2
          cases h1
      · next hov =>
        rw [Bool.not_eq_true] at hov
        injection hrun with h1 h2
        exact Or.inl ⟨hov, h2.symm⟩

theorem update_false_iff {cfg : DashboardConfig} {i : String}
    {p : PartialWidgetLayout} {ok : Bool} {cfg2 : DashboardConfig}
    (hrun : updateWidgetLayout cfg i p = (ok, cfg2)) :
    ok = false ↔
      (cfg.widgets.find? (fun v => v.id == i) = none ∨
        ∃ w, cfg.widgets.find? (fun v => v.id == i) = some w ∧
          (validateLayout cfg.grid.cols (mergeLayout w.layout p) = false ∨
            (hasOverlap cfg i (mergeLayout w.layout p) = true ∧
              resolveOverlaps cfg i (mergeLayout w.layout p) = none))) := by
  rw [updateWidgetLayout] at hrun
  split at hrun
  · next hf =>
    injection hrun with h1 h2
    subst h1
    simp [hf]
  · next w hf =>
    split at hrun
    · next hval =>
      rw [Bool.not_eq_true'] at hval
      injection hrun with h1 h2
      subst h1
      simp only [true_iff]
      exact Or.inr ⟨w, hf, Or.inl hval⟩
    · next hval =>
      rw [Bool.not_eq_true', Bool.not_eq_false] at hval
      split at hrun
      · next hov =>
        split at hrun
        · next L hres =>
          injection hrun with h1 h2
          subst h1
          simp only [Bool.true_eq_false, false_iff]
          rintro (hnone | ⟨w2, hw2, hbad⟩)
          · rw [hnone] at hf
            cases hf
          · rw [hw2] at hf
            injection hf with hf2
            subst hf2
            rcases hbad with hbad | ⟨_, hbad⟩
            · rw [hval] at hbad
              cases hbad
            · rw [hres] at hbad
              cases hbad
        · next hres =>
          injection hrun with h1 h2
          subst h1
          simp only [true_iff]
          exact Or.inr ⟨w, hf, Or.inr ⟨hov, hres⟩⟩
      · next hov =>
        rw [Bool.not_eq_true] at hov
        injection hrun with h1 h2
        subst h1
        simp only [Bool.true_eq_false, false_iff]
        rintro (hnone | ⟨w2, hw2, hbad⟩)
        · rw [hnone] at hf
          cases hf
        · rw [hw2] at hf
          injection hf with hf2
          subst hf2
          rcases hbad with hbad | ⟨hbad, _⟩
          · rw [hval] at hbad
            cases hbad
          · rw [hov] at hbad
            cases hbad

end Dash

namespace Dash

/-- A 2x2 widget at the given position, for concrete instances. -/
def wid22 (s : String) (x y : Int) : DWidget :=
  { id := s, layout := { cols := 2, rows := 2, x := x, y := y } }

/-- A dashboard holding a row-major packed pair of 2x2 widgets. -/
def cfg2w : DashboardConfig :=
  { defaultDashboard with widgets := [wid22 "a" 0 0, wid22 "b" 2 0] }

theorem compactGo_positions_id (gc : Int) :
    ∀ (ws : List DWidget) (occ : List (Int × Int)),
      (compactGo gc occ ws).map (fun w => (w.id, w.layout.x, w.layout.y)) =
        ws.map (fun w => (w.id, w.layout.x, w.layout.y)) →
      compactGo gc occ ws = ws := by
  intro ws
  induction ws with
  | nil => intro occ _; rfl
  | cons w rest ih =>
    intro occ h
    rw [compactGo] at h ⊢
    rw [List.map_cons, List.map_cons] at h
    injection h with h1 h2
    rw [Prod.mk.injEq, Prod.mk.injEq] at h1
    obtain ⟨_, hx, hy⟩ := h1
    dsimp only at hx hy
    rw [hx, hy] at h2 ⊢
    congr 1
    exact ih _ h2

/-- Claim C1, counterexample: `addWidget` given an explicit position performs
no collision check at all, so two explicit adds at `(0, 0)` leave two
colliding 2x2 widgets in the list — the invariant fails as stated. -/
theorem claim_c1_counterexample :
    collisionFree (applyOp (applyOp defaultDashboard
        (DashOp.addAt (wid22 "a" 0 0) (0, 0)))
        (DashOp.addAt (wid22 "b" 0 0) (0, 0))).widgets = false := by
  rfl

/-- Claim C1, amended: starting from a dashboard state satisfying the
data-model invariants (distinct nonempty ids, spans at least 1 that fit the
grid width, pairwise non-colliding widgets), any `addWidget` call without an
explicit position whose instance respects the data model and has a fresh id,
any `updateWidgetLayout` call whose partial keeps spans positive, and any
`compactLayout` call performed while the total rows fit the 1000-row search
bound, leaves the widget list collision-free (and preserves all the
invariants); `addWidget` with an explicit position is excluded. -/
theorem claim_c1_amended (cfg : DashboardConfig) (op : DashOp)
    (h : stateOk cfg = true) (hop : opOk cfg op = true) :
    collisionFree (applyOp cfg op).widgets = true ∧
      stateOk (applyOp cfg op) = true := by
  have h2 := stateOk_applyOp h hop
  refine ⟨?_, h2⟩
  rw [stateOk, Bool.and_eq_true, Bool.and_eq_true] at h2
  exact h2.2

/-- Claim C1, witness: the amended theorem applied to an auto-placed 2x2
widget on the empty default dashboard. -/
theorem claim_c1_witness :
    collisionFree (applyOp defaultDashboard
        (DashOp.addAuto (wid22 "a" 0 0))).widgets = true ∧
      stateOk (applyOp defaultDashboard (DashOp.addAuto (wid22 "a" 0 0))) = true :=
  claim_c1_amended defaultDashboard (DashOp.addAuto (wid22 "a" 0 0))
    (by decide) (by decide)

/-- Claim C2: `updateWidgetLayout` is all-or-nothing.  When it returns
`false` (unknown id, merged layout invalid, or colliding with the ring
search finding nothing within radius 10) the dashboard config is unchanged;
when it returns `true` the found widget's layout becomes either the merged
requested layout (valid, non-colliding) or a ring candidate that is valid,
non-colliding, keeps the merged spans and has clamped non-negative
coordinates. -/
theorem claim_c2 (cfg : DashboardConfig) (i : String) (p : PartialWidgetLayout)
    (ok : Bool) (cfg2 : DashboardConfig)
    (hrun : updateWidgetLayout cfg i p = (ok, cfg2)) :
    (ok = false → cfg2 = cfg) ∧
    (ok = false ↔
      (cfg.widgets.find? (fun v => v.id == i) = none ∨
        ∃ w, cfg.widgets.find? (fun v => v.id == i) = some w ∧
          (validateLayout cfg.grid.cols (mergeLayout w.layout p) = false ∨
            (hasOverlap cfg i (mergeLayout w.layout p) = true ∧
              resolveOverlaps cfg i (mergeLayout w.layout p) = none)))) ∧
    (ok = true → ∃ w, cfg.widgets.find? (fun v => v.id == i) = some w ∧
      validateLayout cfg.grid.cols (mergeLayout w.layout p) = true ∧
      ((hasOverlap cfg i (mergeLayout w.layout p) = false ∧
         cfg2 = { cfg with widgets := setFirstLayout cfg.widgets i (mergeLayout w.layout p) }) ∨
       (hasOverlap cfg i (mergeLayout w.layout p) = true ∧
         ∃ L, resolveOverlaps cfg i (mergeLayout w.layout p) = some L ∧
           validateLayout cfg.grid.cols L = true ∧ hasOverlap cfg i L = false ∧
           L.cols = (mergeLayout w.layout p).cols ∧
           L.rows = (mergeLayout w.layout p).rows ∧ 0 ≤ L.x ∧ 0 ≤ L.y ∧
           cfg2 = { cfg with widgets := setFirstLayout cfg.widgets i L }))) :=
  ⟨fun h => update_false_no_mutation hrun h,
   update_false_iff hrun,
   fun h => update_true_spec hrun h⟩

/-- The partial layout `{x: 0, y: 0}` used by concrete update calls. -/
def p00 : PartialWidgetLayout := { x := some 0, y := some 0 }

/-- Claim C2, witness: moving widget `b` onto widget `a` at `(0, 0)`
succeeds through the ring search (the first acceptable candidate), with the
returned config updated accordingly. -/
theorem claim_c2_witness :
    ∃ w, cfg2w.widgets.find? (fun v => v.id == "b") = some w ∧
      validateLayout cfg2w.grid.cols (mergeLayout w.layout p00) = true ∧
      ((hasOverlap cfg2w "b" (mergeLayout w.layout p00) = false ∧
         (updateWidgetLayout cfg2w "b" p00).2 =
           { cfg2w with
             widgets := setFirstLayout cfg2w.widgets "b" (mergeLayout w.layout p00) }) ∨
       (hasOverlap cfg2w "b" (mergeLayout w.layout p00) = true ∧
         ∃ L, resolveOverlaps cfg2w "b" (mergeLayout w.layout p00) = some L ∧
           validateLayout cfg2w.grid.cols L = true ∧ hasOverlap cfg2w "b" L = false ∧
           L.cols = (mergeLayout w.layout p00).cols ∧
           L.rows = (mergeLayout w.layout p00).rows ∧ 0 ≤ L.x ∧ 0 ≤ L.y ∧
           (updateWidgetLayout cfg2w "b" p00).2 =
             { cfg2w with widgets := setFirstLayout cfg2w.widgets "b" L })) :=
  (claim_c2 cfg2w "b" p00 (updateWidgetLayout cfg2w "b" p00).1
    (updateWidgetLayout cfg2w "b" p00).2 rfl).2.2 rfl

/-- A dashboard holding one freshly created widget: its `WidgetInstance`
snapshot carries `Date` timestamps and the class-valued
`definition.component` reference, as every instance built by
`createWidget` does. -/
def cfgLossy : DashboardConfig :=
  { defaultDashboard with
    widgets := [{ id := "a", layout := { cols := 2, rows := 2, x := 0, y := 0 }
                  createdAt := .date 42, updatedAt := .date 42
                  definition := { component := some (.fn "GraphWidget") } }] }

theorem map_fixed {α : Type} {f : α → α} :
    ∀ {l : List α}, (∀ a ∈ l, f a = a) → l.map f = l := by
  intro l
  induction l with
  | nil => intro _; rfl
  | cons a l ih =>
    intro h
    rw [List.map_cons, h a (List.mem_cons_self _ _),
      ih (fun b hb => h b (List.mem_cons_of_mem _ hb))]

/-- Claim C7, counterexample: the round trip fails in two ways.  A config
whose `id` is the empty string (falsy for `validateDashboardConfig`) makes
`importDashboard(exportDashboard())` return `false`; and a config holding a
widget succeeds (`true`) but the re-imported config is NOT deep-equal to
the exported one — the widget's `Date` timestamps come back as ISO strings
and its class-valued `definition.component` is dropped by
`JSON.stringify`. -/
theorem claim_c7_counterexample :
    (importDashboard (exportDashboard { defaultDashboard with id := "" })
        { defaultDashboard with id := "" }).1 = false ∧
    (importDashboard (exportDashboard cfgLossy) cfgLossy).1 = true ∧
    (importDashboard (exportDashboard cfgLossy) cfgLossy).2 ≠ cfgLossy := by
  refine ⟨rfl, rfl, by decide⟩

/-- Claim C7, amended: for every dashboard config whose `id` and `title`
are nonempty (truthy) strings, `importDashboard (exportDashboard cfg)`
returns `true` and installs the JSON image of the exported config —
deep-equal except that each stored widget's `Date` timestamps become ISO
strings and its function-valued definition fields are dropped; the result
is deep-equal to the original exactly when the config contains no such
lossy values (for instance, when the widget list is empty, or after a
previous import already normalised it). -/
theorem claim_c7_amended (cfg : DashboardConfig) (h1 : cfg.id ≠ "")
    (h2 : cfg.title ≠ "") :
    importDashboard (exportDashboard cfg) cfg = (true, jsonRoundTrip cfg) ∧
    ((∀ w ∈ cfg.widgets, widgetRoundTrip w = w) →
      importDashboard (exportDashboard cfg) cfg = (true, cfg)) := by
  have hok : validateDashboardConfigOk (jsonRoundTrip cfg) = true := by
    simp [validateDashboardConfigOk, jsonRoundTrip, h1, h2]
  have h3 : importDashboard (exportDashboard cfg) cfg = (true, jsonRoundTrip cfg) := by
    rw [importDashboard, exportDashboard, hok]
    rfl
  refine ⟨h3, fun hfix => ?_⟩
  have h4 : jsonRoundTrip cfg = cfg := by
    rw [jsonRoundTrip, map_fixed hfix]
  rw [h3, h4]

/-- Claim C7, witness: the widget-free default dashboard round-trips to a
deep-equal config. -/
theorem claim_c7_witness :
    importDashboard (exportDashboard defaultDashboard) defaultDashboard =
      (true, jsonRoundTrip defaultDashboard) ∧
    ((∀ w ∈ defaultDashboard.widgets, widgetRoundTrip w = w) →
      importDashboard (exportDashboard defaultDashboard) defaultDashboard =
        (true, defaultDashboard)) :=
  claim_c7_amended defaultDashboard (by decide) (by decide)

/-- Claim C8: compacting an already-compact layout is a no-op.  If each
widget, taken in the `(y, x)`-sorted order, already sits at the first
row-major position the greedy packer would assign it, then `compactLayout`
returns the same widgets (same ids, same layouts) up to the sort's
permutation of the list. -/
theorem claim_c8 (cfg : DashboardConfig)
    (h : (compactWidgets cfg (sortYX cfg.widgets)).map
          (fun w => (w.id, w.layout.x, w.layout.y)) =
        (sortYX cfg.widgets).map (fun w => (w.id, w.layout.x, w.layout.y))) :
    (compactLayout cfg).widgets.Perm cfg.widgets := by
  have he := compactGo_positions_id cfg.grid.cols (sortYX cfg.widgets) [] h
  show (compactGo cfg.grid.cols [] (sortYX cfg.widgets)).Perm cfg.widgets
  rw [he]
  exact sortYX_perm _

/-- Claim C8, witness: the packed pair of 2x2 widgets is already compact and
compaction leaves it unchanged up to permutation. -/
theorem claim_c8_witness : (compactLayout cfg2w).widgets.Perm cfg2w.widgets :=
  claim_c8 cfg2w (by decide)

end Dash

namespace Dash

/-- `border` sub-object of `WidgetAppearance`. -/
structure BorderSpec where
  width : Option Int := none
  color : Option String := none
  style : Option String := none
deriving DecidableEq, Repr

/-- `WidgetAppearance` of `widget.interface.ts` (all fields optional). -/
structure WidgetAppearance where
  theme : Option String := none
  cssClasses : Option (List String) := none
  styles : Option (List (String × String)) := none
  icon : Option String := none
  backgroundColor : Option String := none
  textColor : Option String := none
  border : Option BorderSpec := none
deriving DecidableEq, Repr

/-- `cache` sub-object of `WidgetDataSource`. -/
structure CacheSpec where
  enabled : Bool
  ttl : Option Int := none
deriving DecidableEq, Repr

/-- `WidgetDataSource` of `widget.interface.ts` (`type` is one of
`service | api | static | event`, modelled as the raw string). -/
structure WidgetDataSource where
  type_ : String
  source : String
  transform : Option String := none
  refreshInterval : Option Int := none
  parameters : Option (List (String × String)) := none
  cache : Option CacheSpec := none
deriving DecidableEq, Repr

/-- `WidgetPermissions` of `widget.interface.ts`. -/
structure WidgetPermissions where
  view : Option Bool := none
  edit : Option Bool := none
  delete : Option Bool := none
  configure : Option Bool := none
  roles : Option (List String) := none
deriving DecidableEq, Repr

/-- A runtime widget-config object.  `Partial<WidgetConfig>` has every field
optional; the value `{...defaultConfig, ...config, type}` produced by
`createWidget` is such an object with `type` forced present, so the merged
config is modelled in the same shape (`type_ = some ty`).  `settings` values
are opaque and modelled as strings. -/
structure PartialWidgetConfig where
  type_ : Option String := none
  title : Option String := none
  description : Option String := none
  layout : Option WidgetLayout := none
  appearance : Option WidgetAppearance := none
  dataSource : Option WidgetDataSource := none
  settings : Option (List (String × String)) := none
  resizable : Option Bool := none
  movable : Option Bool := none
  removable : Option Bool := none
  permissions : Option WidgetPermissions := none
deriving DecidableEq, Repr

/-- One JS spread step: an own property of the override wins, otherwise the
default's property is kept. -/
def pickField {α : Type} (ovr dflt : Option α) : Option α :=
  match ovr with
  | some v => some v
  | none => dflt

/-- The `createWidget` merge `{...definition.defaultConfig, ...config, type}`:
a single top-level object spread (shallow), with `type` always forced from
the call. -/
def mergeWidgetConfig (dflt ovr : PartialWidgetConfig) (ty : String) :
    PartialWidgetConfig :=
  { type_ := some ty
    title := pickField ovr.title dflt.title
    description := pickField ovr.description dflt.description
    layout := pickField ovr.layout dflt.layout
    appearance := pickField ovr.appearance dflt.appearance
    dataSource := pickField ovr.dataSource dflt.dataSource
    settings := pickField ovr.settings dflt.settings
    resizable := pickField ovr.resizable dflt.resizable
    movable := pickField ovr.movable dflt.movable
    removable := pickField ovr.removable dflt.removable
    permissions := pickField ovr.permissions dflt.permissions }

/-- Modelled from the spec: the deep merge the claim describes
(`deep-merges defaultConfig with overrides, override fields win at every
nesting level`), for comparison against the source's shallow
`mergeWidgetConfig`.  Nested objects (`appearance`, `border`, `dataSource`,
`cache`, `permissions`) and the `settings` map are merged recursively
key-by-key instead of being replaced wholesale. -/
def deepMergeWidgetConfigSpec (dflt ovr : PartialWidgetConfig) (ty : String) :
    PartialWidgetConfig :=
  let mergeBorder : BorderSpec → BorderSpec → BorderSpec := fun d o =>
    { width := pickField o.width d.width
      color := pickField o.color d.color
      style := pickField o.style d.style }
  let mergeAppearance : WidgetAppearance → WidgetAppearance → WidgetAppearance := fun d o =>
    { theme := pickField o.theme d.theme
      cssClasses := pickField o.cssClasses d.cssClasses
      styles := pickField o.styles d.styles
      icon := pickField o.icon d.icon
      backgroundColor := pickField o.backgroundColor d.backgroundColor
      textColor := pickField o.textColor d.textColor
      border := match d.border, o.border with
        | some db, some ob => some (mergeBorder db ob)
        | some db, none => some db
        | none, ob => ob }
  let mergeCache : CacheSpec → CacheSpec → CacheSpec := fun _ o =>
    { enabled := o.enabled, ttl := o.ttl }
  let mergeSource : WidgetDataSource → WidgetDataSource → WidgetDataSource := fun d o =>
    { type_ := o.type_
      source := o.source
      transform := pickField o.transform d.transform
      refreshInterval := pickField o.refreshInterval d.refreshInterval
      parameters := pickField o.parameters d.parameters
      cache := match d.cache, o.cache with
        | some dc, some oc => some (mergeCache dc oc)
        | some dc, none => some dc
        | none, oc => oc }
  let mergePerms : WidgetPermissions → WidgetPermissions → WidgetPermissions := fun d o =>
    { view := pickField o.view d.view
      edit := pickField o.edit d.edit
      delete := pickField o.delete d.delete
      configure := pickField o.configure d.configure
      roles := pickField o.roles d.roles }
  let mergeSettings : List (String × String) → List (String × String) →
      List (String × String) := fun d o =>
    d.filter (fun e => !(o.any (fun e2 => e2.1 == e.1))) ++ o
  { type_ := some ty
    title := pickField ovr.title dflt.title
    description := pickField ovr.description dflt.description
    layout := pickField ovr.layout dflt.layout
    appearance := match dflt.appearance, ovr.appearance with
      | some d, some o => some (mergeAppearance d o)
      | some d, none => some d
      | none, o => o
    dataSource := match dflt.dataSource, ovr.dataSource with
      | some d, some o => some (mergeSource d o)
      | some d, none => some d
      | none, o => o
    settings := match dflt.settings, ovr.settings with
      | some d, some o => some (mergeSettings d o)
      | some d, none => some d
      | none, o => o
    resizable := pickField ovr.resizable dflt.resizable
    movable := pickField ovr.movable dflt.movable
    removable := pickField ovr.removable dflt.removable
    permissions := match dflt.permissions, ovr.permissions with
      | some d, some o => some (mergePerms d o)
      | some d, none => some d
      | none, o => o }

/-- `WidgetDefinition` of `widget.interface.ts`.  Component classes and lazy
loaders are opaque references modelled as string tags (absent when the TS
value would be `undefined`). -/
structure WidgetDefinition where
  type_ : String
  name : String
  description : String := ""
  component : Option String := none
  category : String
  defaultConfig : PartialWidgetConfig := {}
  icon : Option String := none
  tags : Option (List String) := none
  version : Option String := none
  dependencies : Option (List String) := none
  lazy : Option Bool := none
  loadComponent : Option String := none
deriving DecidableEq, Repr

/-- Lookup in a JS `Map` modelled as an association list in insertion
order. -/
def mapGet {β : Type} (m : List (String × β)) (k : String) : Option β :=
  (m.find? (fun e => e.1 == k)).map (·.2)

/-- `Map.set`: update in place when the key exists, else append. -/
def mapSet {β : Type} : List (String × β) → String → β → List (String × β)
  | [], k, v => [(k, v)]
  | e :: m, k, v => if e.1 == k then (k, v) :: m else e :: mapSet m k v

/-- `Map.delete`: remove the (unique) entry with the key. -/
def mapDel {β : Type} : List (String × β) → String → List (String × β)
  | [], _ => []
  | e :: m, k => if e.1 == k then m else e :: mapDel m k

/-- The `widgets` map of `WidgetRegistryService` (the category index is not
read by any modelled operation). -/
structure WidgetRegistry where
  widgets : List (String × WidgetDefinition)
deriving DecidableEq, Repr

namespace WidgetRegistry

/-- `getWidget(type)`. -/
def getWidget (r : WidgetRegistry) (ty : String) : Option WidgetDefinition :=
  mapGet r.widgets ty

/-- `hasWidget(type)`. -/
def hasWidget (r : WidgetRegistry) (ty : String) : Bool :=
  (mapGet r.widgets ty).isSome

end WidgetRegistry

/-- The `{satisfied, missing}` result of `checkDependencies`. -/
structure DepCheck where
  satisfied : Bool
  missing : List String
deriving DecidableEq, Repr

/-- `checkDependencies(type)`: trivially satisfied when the type is
unregistered or declares no `dependencies` (in JS an empty `dependencies`
array is truthy and goes through the filter, also yielding satisfied). -/
def checkDependencies (r : WidgetRegistry) (ty : String) : DepCheck :=
  match r.getWidget ty with
  | none => { satisfied := true, missing := [] }
  | some d =>
    match d.dependencies with
    | none => { satisfied := true, missing := [] }
    | some deps =>
      let missing := deps.filter (fun dep => !r.hasWidget dep)
      { satisfied := missing.isEmpty, missing := missing }

end Dash

namespace Dash

/-- `WidgetState` of `widget.interface.ts`. -/
inductive WidgetState where
  | initializing
  | loading
  | loaded
  | error
  | destroyed
deriving DecidableEq, Repr

/-- `WidgetError` of `widget.interface.ts` (timestamps as naturals). -/
structure WidgetError where
  code : String
  message : String
  details : Option String := none
  timestamp : Nat := 0
  recoverable : Option Bool := none
deriving DecidableEq, Repr

/-- `WidgetInstance` of `widget.interface.ts`: the orchestrator's live
record.  `data` payloads are opaque strings. -/
structure WidgetInstance where
  id : String
  definition : WidgetDefinition
  config : PartialWidgetConfig
  data : Option String := none
  state : WidgetState
  createdAt : Nat
  updatedAt : Nat
  error : Option WidgetError := none
deriving DecidableEq, Repr

/-- The errors `createWidget` can raise before an instance exists, as the
structured content of the thrown `Error` messages. -/
inductive WErr where
  | widgetNotFound (ty : String)
  | missingDependencies (missing : List String)
deriving DecidableEq, Repr

/-- The mutable maps of `WidgetOrchestratorService`: the instance table,
plus the key sets of `componentRefs` and `subscriptions` (their values are
external handles whose only modelled operations are disposal no-ops). -/
structure OrchState where
  instances : List (String × WidgetInstance) := []
  componentRefs : List String := []
  subscriptions : List String := []
deriving DecidableEq, Repr

/-- `Map.delete` on a key set. -/
def delKey : List String → String → List String
  | [], _ => []
  | a :: l, k => if a == k then l else a :: delKey l k

/-- `updateInstanceState`: set the state and bump `updatedAt` when the id is
live. -/
def updateInstanceState (st : OrchState) (i : String) (s : WidgetState)
    (now : Nat) : OrchState :=
  match mapGet st.instances i with
  | none => st
  | some inst =>
    { st with instances := mapSet st.instances i { inst with state := s, updatedAt := now } }

/-- `createWidget(type, config)` without a render container (the modelled
call): look up the definition (`WidgetNotFound`), check dependencies
(`MissingDependencies` naming the missing types), build the instance with
the shallow-merged config, store it, transition to `LOADED`, and return it.
Id generation (`Date.now`/random suffix) and the clock are parameters; the
state is returned alongside so that the no-mutation-on-error behaviour is
part of the model (both throws happen before `instances.set`). -/
def createWidget (reg : WidgetRegistry) (st : OrchState) (ty : String)
    (cfg : PartialWidgetConfig) (freshId : String) (now : Nat) :
    Except WErr WidgetInstance × OrchState :=
  match reg.getWidget ty with
  | none => (.error (.widgetNotFound ty), st)
  | some d =>
    let dep := checkDependencies reg ty
    if dep.satisfied then
      let inst : WidgetInstance :=
        { id := freshId, definition := d
          config := mergeWidgetConfig d.defaultConfig cfg ty
          state := .initializing, createdAt := now, updatedAt := now }
      let st1 : OrchState := { st with instances := mapSet st.instances freshId inst }
      let st2 := updateInstanceState st1 freshId .loaded now
      (.ok { inst with state := .loaded, updatedAt := now }, st2)
    else
      (.error (.missingDependencies dep.missing), st)

/-- `getAllWidgets()`. -/
def getAllWidgets (st : OrchState) : List WidgetInstance :=
  st.instances.map (·.2)

/-- `destroyWidget(id)`: false when the id is unknown; otherwise dispose the
component (the `onDestroy` hook and `componentRef.destroy()` are external
calls whose failures the source converts into `DESTROY_FAILED` with a
`false` return instead of an exception), drop the subscription, transition
to `DESTROYED` and remove the instance from the table. -/
def destroyWidget (st : OrchState) (i : String) : Bool × OrchState :=
  match mapGet st.instances i with
  | none => (false, st)
  | some _ =>
    let st1 : OrchState := { st with componentRefs := delKey st.componentRefs i }
    let st2 : OrchState := { st1 with subscriptions := delKey st1.subscriptions i }
    (true, { st2 with instances := mapDel st2.instances i })

end Dash

namespace Dash

theorem mapGet_cons {β : Type} {e : String × β} {m : List (String × β)} {k : String} :
    mapGet (e :: m) k = if e.1 == k then some e.2 else mapGet m k := by
  rw [mapGet, List.find?_cons]
  cases h : e.1 == k <;> simp [mapGet, h]

theorem mapGet_mapDel_self {β : Type} {m : List (String × β)} {k : String}
    (h : distinctOk (m.map (·.1)) = true) : mapGet (mapDel m k) k = none := by
  induction m with
  | nil => rfl
  | cons e m ih =>
    rw [List.map_cons, distinctOk, pairwiseOk, Bool.and_eq_true, List.all_eq_true] at h
    obtain ⟨hall, hrest⟩ := h
    rw [mapDel]
    by_cases hc : e.1 == k
    · rw [if_pos hc]
      have hnone : ∀ x ∈ m, ¬ ((fun e => e.1 == k) x = true) := by
        intro x hx hxk
        have h1 := hall x.1 (List.mem_map_of_mem _ hx)
        rw [Bool.not_eq_true', beq_eq_false_iff_ne] at h1
        exact h1 ((beq_iff_eq.mp hc).trans (beq_iff_eq.mp hxk).symm)
      rw [mapGet, List.find?_eq_none.mpr hnone]
      rfl
    · have hpe : (e.1 == k) = false := by
        cases hb : e.1 == k with
        | false => rfl
        | true => exact absurd hb hc
      rw [if_neg hc, mapGet_cons, if_neg (by rw [hpe]; exact Bool.false_ne_true)]
      exact ih hrest

/-- Claim C5: `destroyWidget` is idempotent-safe.  In any orchestrator state
whose instance table has (JS-`Map`) unique keys, destroying a live id
returns `true` and removes the instance from the table; a second call with
the same id returns `false`; both calls are total functions of the state
(the source catches disposal-hook exceptions), so neither throws. -/
theorem claim_c5 (st : OrchState) (i : String)
    (hnd : distinctOk (st.instances.map (·.1)) = true)
    (hlive : (mapGet st.instances i).isSome = true) :
    (destroyWidget st i).1 = true ∧
    mapGet (destroyWidget st i).2.instances i = none ∧
    (destroyWidget (destroyWidget st i).2 i).1 = false := by
  cases hg : mapGet st.instances i with
  | none => rw [hg] at hlive; cases hlive
  | some inst =>
    have hrun : destroyWidget st i =
        (true, { st with componentRefs := delKey st.componentRefs i
                         subscriptions := delKey st.subscriptions i
                         instances := mapDel st.instances i }) := by
      rw [destroyWidget, hg]
    have hnone : mapGet (mapDel st.instances i) i = none := mapGet_mapDel_self hnd
    refine ⟨by rw [hrun], ?_, ?_⟩
    · rw [hrun]
      exact hnone
    · rw [hrun, destroyWidget]
      dsimp only
      rw [hnone]

/-- Claim C5, witness: a state holding one live instance. -/
theorem claim_c5_witness :
    (destroyWidget
      { instances := [("w1",
          { id := "w1", definition := { type_ := "t", name := "T", category := "c" }
            config := {}, state := .loaded, createdAt := 0, updatedAt := 0 })] }
      "w1").1 = true ∧
    mapGet (destroyWidget
      { instances := [("w1",
          { id := "w1", definition := { type_ := "t", name := "T", category := "c" }
            config := {}, state := .loaded, createdAt := 0, updatedAt := 0 })] }
      "w1").2.instances "w1" = none ∧
    (destroyWidget (destroyWidget
      { instances := [("w1",
          { id := "w1", definition := { type_ := "t", name := "T", category := "c" }
            config := {}, state := .loaded, createdAt := 0, updatedAt := 0 })] }
      "w1").2 "w1").1 = false :=
  claim_c5
    { instances := [("w1",
        { id := "w1", definition := { type_ := "t", name := "T", category := "c" }
          config := {}, state := .loaded, createdAt := 0, updatedAt := 0 })] }
    "w1" (by decide) (by decide)

/-- Claim C6: when the registered definition of a type declares a dependency
list with unregistered entries, `createWidget` fails with
`MissingDependencies` carrying exactly the missing types, and the instance
table — hence `getAllWidgets()` — is unchanged (the throw happens before
`instances.set`). -/
theorem claim_c6 (reg : WidgetRegistry) (st : OrchState) (ty : String)
    (cfg : PartialWidgetConfig) (freshId : String) (now : Nat)
    (d : WidgetDefinition) (deps : List String)
    (hdef : reg.getWidget ty = some d)
    (hdeps : d.dependencies = some deps)
    (hmiss : deps.filter (fun dep => !reg.hasWidget dep) ≠ []) :
    createWidget reg st ty cfg freshId now =
      (.error (.missingDependencies (deps.filter (fun dep => !reg.hasWidget dep))), st) ∧
    getAllWidgets (createWidget reg st ty cfg freshId now).2 = getAllWidgets st := by
  have hchk : checkDependencies reg ty =
      { satisfied := false, missing := deps.filter (fun dep => !reg.hasWidget dep) } := by
    rw [checkDependencies, hdef]
    dsimp only
    rw [hdeps]
    dsimp only
    cases hM : deps.filter (fun dep => !reg.hasWidget dep) with
    | nil => exact absurd hM hmiss
    | cons a l => rfl
  have hrun : createWidget reg st ty cfg freshId now =
      (.error (.missingDependencies (deps.filter (fun dep => !reg.hasWidget dep))), st) := by
    rw [createWidget, hdef]
    dsimp only
    rw [hchk]
    exact rfl
  exact ⟨hrun, by rw [hrun]⟩

/-- The default config of the widget type used in concrete registry
instances: a nested `appearance` object with two fields. -/
def dfltCfg : PartialWidgetConfig :=
  { appearance := some { theme := some "dark", icon := some "ic" } }

/-- A config override whose `appearance` object sets only `theme`. -/
def ovrCfg : PartialWidgetConfig :=
  { appearance := some { theme := some "light" } }

/-- The registered definition of type `t`. -/
def defC4 : WidgetDefinition :=
  { type_ := "t", name := "T", category := "c", component := some "TComp"
    defaultConfig := dfltCfg }

/-- A registry holding only the definition of type `t`. -/
def regC4 : WidgetRegistry := ⟨[("t", defC4)]⟩

/-- A definition whose dependency list names an unregistered type. -/
def defC6 : WidgetDefinition :=
  { type_ := "u", name := "U", category := "c", component := some "UComp"
    dependencies := some ["missing-type"] }

/-- A registry where type `u` depends on the unregistered `missing-type`. -/
def regC6 : WidgetRegistry := ⟨[("u", defC6)]⟩

/-- Claim C6, witness: creating a `u` widget fails naming `missing-type`
and adds nothing to the table. -/
theorem claim_c6_witness :
    createWidget regC6 {} "u" {} "id1" 3 =
      (.error (.missingDependencies ["missing-type"]), ({} : OrchState)) ∧
    getAllWidgets (createWidget regC6 {} "u" {} "id1" 3).2 = getAllWidgets {} :=
  claim_c6 regC6 {} "u" {} "id1" 3 defC6 ["missing-type"] rfl rfl (by decide)

/-- Claim C10: `checkDependencies` on a type that is not registered at all
returns `{satisfied: true, missing: []}` — the same result as for a
registered definition without a `dependencies` field; it never fails and
never reports the type itself as missing. -/
theorem claim_c10 (r : WidgetRegistry) (ty ty2 : String) (d : WidgetDefinition)
    (h1 : r.getWidget ty = none)
    (h2 : r.getWidget ty2 = some d) (h3 : d.dependencies = none) :
    checkDependencies r ty = { satisfied := true, missing := [] } ∧
    checkDependencies r ty2 = { satisfied := true, missing := [] } := by
  constructor
  · rw [checkDependencies, h1]
  · rw [checkDependencies, h2]
    dsimp only
    rw [h3]

/-- Claim C10, witness: an unregistered type against the one-entry registry,
compared with its dependency-free registered type. -/
theorem claim_c10_witness :
    checkDependencies regC4 "nope" = { satisfied := true, missing := [] } ∧
    checkDependencies regC4 "t" = { satisfied := true, missing := [] } :=
  claim_c10 regC4 "nope" "t" defC4 rfl rfl rfl

end Dash

namespace Dash

/-- Claim C4, counterexample: `createWidget` merges `defaultConfig` with the
overrides by a single top-level object spread, so an override that sets only
`appearance.theme` replaces the whole `appearance` object — the result
equals the shallow merge and differs from the deep merge the claim
describes (which would keep `appearance.icon` from the default). -/
theorem claim_c4_counterexample :
    ((createWidget regC4 {} "t" ovrCfg "id1" 5).1.toOption.map (·.config)) =
      some (mergeWidgetConfig dfltCfg ovrCfg "t") ∧
    ((createWidget regC4 {} "t" ovrCfg "id1" 5).1.toOption.map (·.config)) ≠
      some (deepMergeWidgetConfigSpec dfltCfg ovrCfg "t") :=
  ⟨rfl, by decide⟩

/-- Claim C4, amended: a successful `createWidget(type, overrides)` produces
a config equal to the single shallow spread `{...defaultConfig, ...overrides,
type}`: each top-level field comes from the overrides when present there and
from the default otherwise (nested objects such as `appearance` replaced
wholesale), and `config.type` equals the call's type argument regardless of
any `type` in the default or the overrides. -/
theorem claim_c4_amended (reg : WidgetRegistry) (st : OrchState) (ty : String)
    (cfg : PartialWidgetConfig) (freshId : String) (now : Nat)
    (d : WidgetDefinition)
    (hdef : reg.getWidget ty = some d)
    (hsat : (checkDependencies reg ty).satisfied = true) :
    ∃ inst, (createWidget reg st ty cfg freshId now).1 = .ok inst ∧
      inst.config = mergeWidgetConfig d.defaultConfig cfg ty ∧
      inst.config.type_ = some ty ∧
      inst.config.title = pickField cfg.title d.defaultConfig.title ∧
      inst.config.layout = pickField cfg.layout d.defaultConfig.layout ∧
      inst.config.appearance = pickField cfg.appearance d.defaultConfig.appearance ∧
      inst.config.dataSource = pickField cfg.dataSource d.defaultConfig.dataSource ∧
      inst.config.settings = pickField cfg.settings d.defaultConfig.settings ∧
      inst.config.permissions = pickField cfg.permissions d.defaultConfig.permissions := by
  have hsat2 : (checkDependencies reg ty).satisfied = true := hsat
  refine ⟨{ id := freshId, definition := d
            config := mergeWidgetConfig d.defaultConfig cfg ty
            state := .loaded, createdAt := now, updatedAt := now },
    ?_, rfl, rfl, rfl, rfl, rfl, rfl, rfl, rfl⟩
  rw [createWidget, hdef]
  dsimp only
  rw [if_pos hsat2]

/-- Claim C4, witness: the amended theorem at the concrete one-definition
registry, showing the override's `appearance` replacing the default's. -/
theorem claim_c4_witness :
    ∃ inst, (createWidget regC4 {} "t" ovrCfg "id1" 5).1 = .ok inst ∧
      inst.config = mergeWidgetConfig defC4.defaultConfig ovrCfg "t" ∧
      inst.config.type_ = some "t" ∧
      inst.config.title = pickField ovrCfg.title defC4.defaultConfig.title ∧
      inst.config.layout = pickField ovrCfg.layout defC4.defaultConfig.layout ∧
      inst.config.appearance = pickField ovrCfg.appearance defC4.defaultConfig.appearance ∧
      inst.config.dataSource = pickField ovrCfg.dataSource defC4.defaultConfig.dataSource ∧
      inst.config.settings = pickField ovrCfg.settings defC4.defaultConfig.settings ∧
      inst.config.permissions = pickField ovrCfg.permissions defC4.defaultConfig.permissions :=
  claim_c4_amended regC4 {} "t" ovrCfg "id1" 5 defC4 rfl rfl

end Dash

namespace Dash

/-- `WidgetEvent` of `widget.interface.ts` (payloads opaque, timestamps as
naturals). -/
structure BusEvent where
  type_ : String
  source : String
  target : Option String := none
  payload : Option String := none
  timestamp : Nat := 0
  bubble : Option Bool := none
deriving DecidableEq, Repr

/-- One subscription on the single `eventBus` subject of
`WidgetCommunicationService`: `subscribe(eventType)`,
`subscribeToWidget(sourceId)` or `subscribeToTargetedEvents(targetId)`. -/
inductive BusSubscriber where
  | byType (eventType : String)
  | bySource (sourceId : String)
  | byTarget (targetId : String)
deriving DecidableEq, Repr

/-- The filter predicate each subscription kind applies to a bus event. -/
def subMatches : BusSubscriber → BusEvent → Bool
  | .byType t, e => e.type_ == t
  | .bySource s, e => e.source == s
  | .byTarget t, e => e.target == some t

/-- `broadcast(event)`: stamp the timestamp and force `bubble = true`. -/
def broadcastEvent (e : BusEvent) (now : Nat) : BusEvent :=
  { e with timestamp := now, bubble := some true }

/-- `send(targetId, event)`: stamp the timestamp, set the target, force
`bubble = false`, and push onto the same `eventBus` subject. -/
def sendEvent (targetId : String) (e : BusEvent) (now : Nat) : BusEvent :=
  { e with target := some targetId, timestamp := now, bubble := some false }

/-- The subscribers that receive an event pushed on the bus: every
subscription whose filter matches, in subscription order. -/
def deliverTo (subs : List BusSubscriber) (e : BusEvent) : List BusSubscriber :=
  subs.filter (fun s => subMatches s e)

/-- Claim C3, counterexample: all subscriptions filter the same `eventBus`
stream, and `subscribe(eventType)` filters only on `event.type`, so a
directed event sent via `send("w1", {type: "X"})` IS delivered to a handler
registered via `subscribe("X")` — refuting the claim that it never is.
(The service's own `request` helper depends on this delivery.) -/
theorem claim_c3_counterexample :
    deliverTo [BusSubscriber.byType "X"]
      (sendEvent "w1" { type_ := "X", source := "w2" } 3) =
      [BusSubscriber.byType "X"] := by
  rfl

/-- Claim C3, amended: delivery of a `send(targetId, event)` event is
per-subscription filtering on one shared stream: a
`subscribeToTargetedEvents(targetId)` subscription receives it, a
`subscribe(eventType)` subscription receives it exactly when the event's
type matches, and a `subscribeToWidget(sourceId)` subscription exactly when
the source matches — directed delivery is not restricted to target-keyed
subscribers. -/
theorem claim_c3_amended (subs : List BusSubscriber) (targetId : String)
    (e : BusEvent) (now : Nat) (s : BusSubscriber) :
    s ∈ deliverTo subs (sendEvent targetId e now) ↔
      s ∈ subs ∧ ((∃ t, s = .byType t ∧ e.type_ = t) ∨
                  (∃ src, s = .bySource src ∧ e.source = src) ∨
                  (s = .byTarget targetId)) := by
  rw [deliverTo, List.mem_filter]
  constructor
  · rintro ⟨hmem, hmatch⟩
    refine ⟨hmem, ?_⟩
    cases s with
    | byType t =>
      rw [subMatches] at hmatch
      exact Or.inl ⟨t, rfl, beq_iff_eq.mp hmatch⟩
    | bySource src =>
      rw [subMatches] at hmatch
      exact Or.inr (Or.inl ⟨src, rfl, beq_iff_eq.mp hmatch⟩)
    | byTarget tg =>
      rw [subMatches] at hmatch
      have : (sendEvent targetId e now).target = some tg := by
        have h2 := beq_iff_eq.mp hmatch
        exact h2
      rw [sendEvent] at this
      injection this with h3
      exact Or.inr (Or.inr (by rw [h3]))
  · rintro ⟨hmem, hcase⟩
    refine ⟨hmem, ?_⟩
    rcases hcase with ⟨t, rfl, hty⟩ | ⟨src, rfl, hsrc⟩ | rfl
    · rw [subMatches]
      exact beq_iff_eq.mpr hty
    · rw [subMatches]
      exact beq_iff_eq.mpr hsrc
    · rw [subMatches]
      exact beq_iff_eq.mpr rfl

/-- Claim C3, witness: the amended characterization applied to a concrete
bus holding one subscriber of each kind. -/
theorem claim_c3_witness :
    BusSubscriber.byType "X" ∈
      deliverTo [BusSubscriber.byType "X", BusSubscriber.byTarget "w1"]
        (sendEvent "w1" { type_ := "X", source := "w2" } 3) :=
  (claim_c3_amended [BusSubscriber.byType "X", BusSubscriber.byTarget "w1"]
    "w1" { type_ := "X", source := "w2" } 3 (BusSubscriber.byType "X")).mpr
    ⟨by decide, Or.inl ⟨"X", rfl, rfl⟩⟩

end Dash

namespace Dash

/-- A JS value stored in a shared-state cell; `undef` is JS `undefined`
(the initial `BehaviorSubject(undefined)` value). -/
inductive JsVal where
  | undef
  | str (s : String)
  | num (n : Int)
deriving DecidableEq, Repr

/-- The shared-state calls covered by the replay claim: `setSharedState`
and `subscribeToSharedState` (subscribers tagged by a caller id). -/
inductive StateOp where
  | setState (key : String) (v : JsVal)
  | subscribeState (sid : Nat) (key : String)
deriving DecidableEq, Repr

/-- The `sharedState` map of `BehaviorSubject`s, its attached subscribers,
and the trace of values each subscriber has been handed (in delivery
order). -/
structure StoreModel where
  cells : List (String × JsVal) := []
  subs : List (Nat × String) := []
  deliveries : List (Nat × JsVal) := []
deriving DecidableEq, Repr

/-- One call.  `setSharedState(key, value)` creates the cell (a fresh
subject has no subscribers, so nothing is delivered) or nexts the value to
every subscriber of that key.  `subscribeToSharedState(key)` creates the
cell with `undefined` if absent, then the `BehaviorSubject` immediately
replays its current value to the new subscriber.  (Both also broadcast a
`STATE_CHANGED` bus event, which is outside this store model.) -/
def stepOp (m : StoreModel) : StateOp → StoreModel
  | .setState k v =>
    if (mapGet m.cells k).isSome then
      { m with cells := mapSet m.cells k v
               deliveries := m.deliveries ++
                 (m.subs.filter (fun s => s.2 == k)).map (fun s => (s.1, v)) }
    else
      { m with cells := mapSet m.cells k v }
  | .subscribeState sid k =>
    if (mapGet m.cells k).isSome then
      { m with subs := m.subs ++ [(sid, k)]
               deliveries := m.deliveries ++ [(sid, (mapGet m.cells k).getD .undef)] }
    else
      { m with cells := mapSet m.cells k .undef
               subs := m.subs ++ [(sid, k)]
               deliveries := m.deliveries ++ [(sid, .undef)] }

/-- Run a call sequence from a model state. -/
def runFrom (m : StoreModel) (ops : List StateOp) : StoreModel :=
  ops.foldl stepOp m

/-- Run a call sequence from the service's initial empty state. -/
def runOps (ops : List StateOp) : StoreModel :=
  runFrom {} ops

/-- The sequence of values a given subscriber observes. -/
def observed (m : StoreModel) (sid : Nat) : List JsVal :=
  (m.deliveries.filter (fun d => d.1 == sid)).map (·.2)

/-- The value a single call sets for the key, if any. -/
def opSetVal (k : String) : StateOp → Option JsVal
  | .setState k2 v => if k2 == k then some v else none
  | _ => none

/-- The most recent value set for a key over a call sequence, if any. -/
def lastSetVal : List StateOp → String → Option JsVal
  | [], _ => none
  | op :: rest, k =>
    match lastSetVal rest k with
    | some v => some v
    | none => opSetVal k op

/-- The values set for a key over a call sequence, in order. -/
def setsFor (ops : List StateOp) (k : String) : List JsVal :=
  ops.filterMap (opSetVal k)

/-- No subscription by the given subscriber id occurs in the sequence. -/
def noSubOf (sid : Nat) (ops : List StateOp) : Bool :=
  ops.all (fun op =>
    match op with
    | .subscribeState sid2 _ => !(sid2 == sid)
    | _ => true)

end Dash

namespace Dash

theorem mapGet_mapSet {β : Type} (m : List (String × β)) (k2 k : String) (v : β) :
    mapGet (mapSet m k2 v) k = if k2 == k then some v else mapGet m k := by
  induction m with
  | nil =>
    by_cases hk : k2 == k <;> simp [mapSet, mapGet_cons, mapGet, hk]
  | cons e m ih =>
    by_cases hc : e.1 == k2
    · have he : e.1 = k2 := beq_iff_eq.mp hc
      by_cases hk : k2 == k <;> simp [mapSet, hc, mapGet_cons, he, hk]
    · by_cases hek : e.1 == k
      · have h1 : (k2 == k) = false := by
          rw [beq_eq_false_iff_ne]
          intro hkk
          rw [hkk] at hc
          exact hc hek
        simp [mapSet, hc, mapGet_cons, hek, h1]
      · simp [mapSet, hc, mapGet_cons, hek, ih]

theorem cellVal_runFrom (k : String) :
    ∀ (ops : List StateOp) (m : StoreModel),
      (mapGet (runFrom m ops).cells k).getD .undef =
        (lastSetVal ops k).getD ((mapGet m.cells k).getD .undef) := by
  intro ops
  induction ops with
  | nil => intro m; rfl
  | cons op rest ih =>
    intro m
    rw [runFrom, List.foldl_cons]
    have hih := ih (stepOp m op)
    rw [runFrom] at hih
    rw [hih]
    cases hl : lastSetVal rest k with
    | some v =>
      have h2 : lastSetVal (op :: rest) k = some v := by rw [lastSetVal, hl]
      rw [h2]
      rfl
    | none =>
      have h2 : lastSetVal (op :: rest) k = opSetVal k op := by rw [lastSetVal, hl]
      rw [h2, Option.getD_none]
      cases op with
      | setState k2 v =>
        by_cases hk : k2 == k
        · cases hp : (mapGet m.cells k2).isSome <;>
            simp [stepOp, opSetVal, hp, mapGet_mapSet, hk]
        · cases hp : (mapGet m.cells k2).isSome <;>
            simp [stepOp, opSetVal, hp, mapGet_mapSet, hk]
      | subscribeState sid2 k2 =>
        cases hp : (mapGet m.cells k2).isSome with
        | true => simp [stepOp, opSetVal, hp]
        | false =>
          by_cases hk : k2 == k
          · have hnone : mapGet m.cells k = none := by
              rw [← beq_iff_eq.mp hk]
              cases hg : mapGet m.cells k2 with
              | none => rfl
              | some u => rw [hg] at hp; cases hp
            simp [stepOp, opSetVal, hp, mapGet_mapSet, hk, hnone]
          · simp [stepOp, opSetVal, hp, mapGet_mapSet, hk]

theorem deliver_filter_sid (subs : List (Nat × String)) (k2 : String) (v : JsVal)
    (sid : Nat) :
    ((subs.filter (fun s => s.2 == k2)).map (fun s => (s.1, v))).filter
        (fun d => d.1 == sid) =
      ((subs.filter (fun s => s.1 == sid)).filter (fun s => s.2 == k2)).map
        (fun s => (s.1, v)) := by
  induction subs with
  | nil => rfl
  | cons s rest ih =>
    by_cases h2 : s.2 == k2 <;> by_cases h1 : s.1 == sid <;>
      simp [List.filter_cons, h1, h2, ih]

theorem runFrom_no_sid {sid : Nat} :
    ∀ (ops : List StateOp) (m : StoreModel),
      noSubOf sid ops = true →
      m.subs.filter (fun s => s.1 == sid) = [] →
      ((runFrom m ops).deliveries.filter (fun d => d.1 == sid) =
          m.deliveries.filter (fun d => d.1 == sid) ∧
        (runFrom m ops).subs.filter (fun s => s.1 == sid) = []) := by
  intro ops
  induction ops with
  | nil => intro m _ hs; exact ⟨rfl, hs⟩
  | cons op rest ih =>
    intro m hno hs
    simp only [noSubOf, List.all_cons, Bool.and_eq_true] at hno
    obtain ⟨hop, hrest⟩ := hno
    rw [runFrom, List.foldl_cons]
    have hstep : (stepOp m op).deliveries.filter (fun d => d.1 == sid) =
        m.deliveries.filter (fun d => d.1 == sid) ∧
        (stepOp m op).subs.filter (fun s => s.1 == sid) = [] := by
      cases op with
      | setState k2 v =>
        cases hp : (mapGet m.cells k2).isSome with
        | true =>
          constructor
          · simp only [stepOp, hp, if_true, List.filter_append]
            rw [deliver_filter_sid, hs]
            simp
          · simp [stepOp, hp, hs]
        | false => simp [stepOp, hp, hs]
      | subscribeState sid2 k2 =>
        have hneq : (sid2 == sid) = false := by
          simpa using hop
        cases hp : (mapGet m.cells k2).isSome <;>
          simp [stepOp, hp, List.filter_append, hs, hneq]
    obtain ⟨hd, hsub⟩ := ih (stepOp m op) hrest hstep.2
    rw [runFrom] at hd hsub
    exact ⟨hd.trans hstep.1, hsub⟩

end Dash

namespace Dash

theorem runFrom_post {sid : Nat} {k : String} :
    ∀ (ops : List StateOp) (m : StoreModel),
      noSubOf sid ops = true →
      m.subs.filter (fun s => s.1 == sid) = [(sid, k)] →
      (mapGet m.cells k).isSome = true →
      ((runFrom m ops).deliveries.filter (fun d => d.1 == sid) =
          m.deliveries.filter (fun d => d.1 == sid) ++
            (setsFor ops k).map (fun v => (sid, v))) ∧
      (runFrom m ops).subs.filter (fun s => s.1 == sid) = [(sid, k)] ∧
      (mapGet (runFrom m ops).cells k).isSome = true := by
  intro ops
  induction ops with
  | nil =>
    intro m _ hsub hcell
    exact ⟨by simp [runFrom, setsFor], hsub, hcell⟩
  | cons op rest ih =>
    intro m hno hsub hcell
    simp only [noSubOf, List.all_cons, Bool.and_eq_true] at hno
    obtain ⟨hop, hrest⟩ := hno
    rw [runFrom, List.foldl_cons]
    have hstep :
        (stepOp m op).deliveries.filter (fun d => d.1 == sid) =
          m.deliveries.filter (fun d => d.1 == sid) ++
            ((opSetVal k op).toList.map (fun v => (sid, v))) ∧
        (stepOp m op).subs.filter (fun s => s.1 == sid) = [(sid, k)] ∧
        (mapGet (stepOp m op).cells k).isSome = true := by
      cases op with
      | setState k2 v =>
        by_cases hk : k2 == k
        · have hk2 : k2 = k := beq_iff_eq.mp hk
          have hp : (mapGet m.cells k2).isSome = true := by rw [hk2]; exact hcell
          refine ⟨?_, by simp [stepOp, hp, hsub], by simp [stepOp, hp, mapGet_mapSet, hk]⟩
          simp only [stepOp, hp, if_true, List.filter_append]
          rw [deliver_filter_sid, hsub]
          simp [opSetVal, hk, hk2]
        · by_cases hp : (mapGet m.cells k2).isSome
          · refine ⟨?_, by simp [stepOp, hp, hsub], by simp [stepOp, hp, mapGet_mapSet, hk, hcell]⟩
            simp only [stepOp, hp, if_true, List.filter_append]
            rw [deliver_filter_sid, hsub]
            have hkk : (k == k2) = false := by
              rw [beq_eq_false_iff_ne]
              intro he
              rw [he] at hk
              exact hk (beq_iff_eq.mpr rfl)
            simp [opSetVal, hk, hkk]
          · refine ⟨by simp [stepOp, hp, opSetVal, hk], by simp [stepOp, hp, hsub],
              by simp [stepOp, hp, mapGet_mapSet, hk, hcell]⟩
      | subscribeState sid2 k2 =>
        have hneq : (sid2 == sid) = false := by simpa using hop
        by_cases hp : (mapGet m.cells k2).isSome
        · refine ⟨?_, ?_, by simp [stepOp, hp, hcell]⟩
          · simp [stepOp, hp, List.filter_append, hneq, opSetVal]
          · simp [stepOp, hp, List.filter_append, hneq, hsub]
        · refine ⟨?_, ?_, ?_⟩
          · simp [stepOp, hp, List.filter_append, hneq, opSetVal]
          · simp [stepOp, hp, List.filter_append, hneq, hsub]
          · by_cases hk : k2 == k <;> simp [stepOp, hp, mapGet_mapSet, hk, hcell]
    obtain ⟨hd, hsub2, hcell2⟩ := ih (stepOp m op) hrest hstep.2.1 hstep.2.2
    rw [runFrom] at hd hsub2 hcell2
    refine ⟨?_, hsub2, hcell2⟩
    rw [hd, hstep.1, List.append_assoc]
    congr 1
    cases ho : opSetVal k op <;> simp [setsFor, List.filterMap_cons, ho]

/-- Claim C9: shared-state subscription replays the last value.  For any
call sequence around a `subscribeToSharedState(k)` call by a fresh
subscriber, the subscriber's observed value sequence is exactly: first the
most recent `setSharedState(k, v)` value from before the subscription (or
`undefined` when no set for `k` happened before), then each later
`setSharedState(k, v')` value in order. -/
theorem claim_c9 (pre post : List StateOp) (sid : Nat) (k : String)
    (hpre : noSubOf sid pre = true) (hpost : noSubOf sid post = true) :
    observed (runOps (pre ++ StateOp.subscribeState sid k :: post)) sid =
      ((lastSetVal pre k).getD JsVal.undef) :: setsFor post k := by
  have hsplit : runOps (pre ++ StateOp.subscribeState sid k :: post) =
      runFrom (stepOp (runFrom {} pre) (StateOp.subscribeState sid k)) post := by
    rw [runOps, runFrom, List.foldl_append, List.foldl_cons]
    rfl
  obtain ⟨hd1, hs1⟩ := runFrom_no_sid pre ({} : StoreModel) hpre rfl
  have hd1' : (runFrom {} pre).deliveries.filter (fun d => d.1 == sid) = [] := by
    rw [hd1]
    rfl
  have hcur : (mapGet (runFrom {} pre).cells k).getD .undef =
      (lastSetVal pre k).getD JsVal.undef := cellVal_runFrom k pre {}
  have hfacts :
      (stepOp (runFrom {} pre) (StateOp.subscribeState sid k)).deliveries.filter
          (fun d => d.1 == sid) =
        [(sid, (mapGet (runFrom {} pre).cells k).getD .undef)] ∧
      (stepOp (runFrom {} pre) (StateOp.subscribeState sid k)).subs.filter
          (fun s => s.1 == sid) = [(sid, k)] ∧
      (mapGet (stepOp (runFrom {} pre) (StateOp.subscribeState sid k)).cells k).isSome
        = true := by
    by_cases hp : (mapGet (runFrom {} pre).cells k).isSome
    · refine ⟨?_, ?_, by simp [stepOp, hp]⟩
      · simp [stepOp, hp, List.filter_append, hd1']
      · simp [stepOp, hp, List.filter_append, hs1]
    · have hnone : mapGet (runFrom {} pre).cells k = none := by
        cases hg : mapGet (runFrom {} pre).cells k with
        | none => rfl
        | some u => rw [hg] at hp; exact absurd rfl hp
      refine ⟨?_, ?_, ?_⟩
      · simp [stepOp, hp, List.filter_append, hd1', hnone]
      · simp [stepOp, hp, List.filter_append, hs1]
      · simp [stepOp, hp, mapGet_mapSet]
  obtain ⟨hdf, _, _⟩ := runFrom_post post
    (stepOp (runFrom {} pre) (StateOp.subscribeState sid k)) hpost
    hfacts.2.1 hfacts.2.2
  rw [observed, hsplit, hdf, hfacts.1, hcur]
  simp [List.map_append, List.map_map, Function.comp]

/-- Claim C9, witness: after `set a:=1; set b:=5`, a fresh subscriber on `a`
first observes `1`, then the later `set a:=2`; another subscriber joining
afterwards does not disturb the trace. -/
theorem claim_c9_witness :
    observed (runOps ([StateOp.setState "a" (.num 1), StateOp.setState "b" (.num 5)] ++
      StateOp.subscribeState 0 "a" ::
        [StateOp.setState "a" (.num 2), StateOp.subscribeState 1 "a"])) 0 =
      [JsVal.num 1, JsVal.num 2] :=
  (claim_c9 [StateOp.setState "a" (.num 1), StateOp.setState "b" (.num 5)]
    [StateOp.setState "a" (.num 2), StateOp.subscribeState 1 "a"] 0 "a"
    (by decide) (by decide)).trans (by decide)

end Dash
